import Mathlib

/-!
# Verification of the libspecbleach spectral noise-reduction core

A shallow embedding, in Lean 4, of the parts of libspecbleach that the
specification's claims are about.  C `float` values are modelled as exact
rationals (`ℚ`), `float` arrays as `List ℚ`, nullable pointers as `Option`,
and C `uint32_t`/`int` counters as `Nat`/`Int` (no overflow is reachable in
any statement below).  Each definition is translated from the corresponding
C function in `src/`; the very few constants that are referenced by the C
sources but whose defining header is not part of the tree are modelled from
the specification and marked `Modelled from the spec:` in their doc comment.

The repository ships an older `noise_profile.h`/`noise_estimator.c` pair
(single-profile API) next to the newer mode-indexed implementation in
`noise_profile.c`; the processors (`spectral_denoiser.c`,
`spectral_2d_denoiser.c`) drive the learning loop per mode.  Following the
newest revision, `noise_estimation_run` below takes the mode and each of its
branches reads and updates that mode's entry of the profile, which is the
only reading consistent with `noise_profile.c` and the processors.
-/

/-! ## Noise profile (src/src/shared/noise_estimation/noise_profile.c) -/

/-- `MIN_NUMBER_OF_WINDOWS_NOISE_AVERAGED` from `src/src/shared/configurations.h`. -/
def MIN_NUMBER_OF_WINDOWS_NOISE_AVERAGED : Nat := 5

/-- `NUMBER_OF_MEDIAN_SPECTRUM` from `src/src/shared/configurations.h`. -/
def NUMBER_OF_MEDIAN_SPECTRUM : Nat := 5

/-- `NOISE_PROFILE_MODES`: the profile struct holds one entry per mode
1..3 (rolling mean, median, max), as the mode guards in `noise_profile.c`
show. -/
def NOISE_PROFILE_MODES : Nat := 3

/-- `struct NoiseProfile`: three per-mode profile arrays, their
`blocks_averaged` counters and availability flags (all lists have length
`NOISE_PROFILE_MODES = 3`). -/
structure NoiseProfile where
  noise_profile_size : Nat
  noise_profiles : List (List ℚ)
  noise_profile_blocks_averaged : List Nat
  noise_spectrum_available : List Bool
deriving Repr, DecidableEq

/-- `noise_profile_initialize` (allocation failure is not modelled): all
three profiles are zero arrays of length `size`, counters zero, flags
false. -/
def noise_profile_initialize (size : Nat) : NoiseProfile :=
  { noise_profile_size := size
    noise_profiles := List.replicate NOISE_PROFILE_MODES (List.replicate size 0)
    noise_profile_blocks_averaged := List.replicate NOISE_PROFILE_MODES 0
    noise_spectrum_available := List.replicate NOISE_PROFILE_MODES false }

/-- Index of a mode in the per-mode arrays (`mode - 1` in the C sources);
only used behind the `1 ≤ mode ≤ 3` guards. -/
def modeIndex (mode : Int) : Nat := (mode - 1).toNat

/-- `is_noise_estimation_available` (mode-indexed version). -/
def is_noise_estimation_available (self : NoiseProfile) (mode : Int) : Bool :=
  if mode < 1 || mode > 3 then false
  else self.noise_spectrum_available.getD (modeIndex mode) false

/-- `get_noise_profile` (mode-indexed version); `none` models the NULL
return for an invalid mode. -/
def get_noise_profile (self : NoiseProfile) (mode : Int) : Option (List ℚ) :=
  if mode < 1 || mode > 3 then none
  else some (self.noise_profiles.getD (modeIndex mode) [])

/-- `get_noise_profile_size`. -/
def get_noise_profile_size (self : NoiseProfile) : Nat :=
  self.noise_profile_size

/-- `get_noise_profile_blocks_averaged` (mode-indexed version). -/
def get_noise_profile_blocks_averaged (self : NoiseProfile) (mode : Int) : Nat :=
  if mode < 1 || mode > 3 then 0
  else self.noise_profile_blocks_averaged.getD (modeIndex mode) 0

/-- `set_noise_profile_available` (mode-indexed version). -/
def set_noise_profile_available (self : NoiseProfile) (mode : Int) : NoiseProfile :=
  if 1 ≤ mode ∧ mode ≤ 3 then
    { self with noise_spectrum_available :=
        self.noise_spectrum_available.set (modeIndex mode) true }
  else self

/-- `set_noise_profile` (mode-indexed version): on success, `memcpy`s the
first `noise_profile_size` floats of the supplied array into the mode's
slot, stores the supplied `blocks_averaged`, and marks the mode available.
Returns the C `bool` together with the (unchanged, on failure) state. -/
def set_noise_profile (self : NoiseProfile) (mode : Int)
    (noise_profile : Option (List ℚ)) (noise_profile_size : Nat)
    (noise_profile_blocks_averaged : Nat) : Bool × NoiseProfile :=
  match noise_profile with
  | none => (false, self)
  | some p =>
    if mode < 1 || mode > 3 || noise_profile_size != self.noise_profile_size then
      (false, self)
    else
      let index := modeIndex mode
      (true,
       { self with
          noise_profiles := self.noise_profiles.set index (p.take noise_profile_size)
          noise_profile_blocks_averaged :=
            self.noise_profile_blocks_averaged.set index noise_profile_blocks_averaged
          noise_spectrum_available := self.noise_spectrum_available.set index true })

/-- `increment_blocks_averaged` (mode-indexed version): bumps the mode's
counter and marks the mode available once the counter exceeds
`MIN_NUMBER_OF_WINDOWS_NOISE_AVERAGED`. -/
def increment_blocks_averaged (self : NoiseProfile) (mode : Int) :
    Bool × NoiseProfile :=
  if mode < 1 || mode > 3 then (false, self)
  else
    let index := modeIndex mode
    let count := self.noise_profile_blocks_averaged.getD index 0 + 1
    let blocks := self.noise_profile_blocks_averaged.set index count
    let avail :=
      if count > MIN_NUMBER_OF_WINDOWS_NOISE_AVERAGED &&
          !(self.noise_spectrum_available.getD index false) then
        self.noise_spectrum_available.set index true
      else self.noise_spectrum_available
    (true, { self with noise_profile_blocks_averaged := blocks
                       noise_spectrum_available := avail })

/-- `reset_noise_profile`: zeroes all three profiles, counters and flags. -/
def reset_noise_profile (self : NoiseProfile) : Bool × NoiseProfile :=
  (true,
   { self with
      noise_profiles :=
        List.replicate NOISE_PROFILE_MODES (List.replicate self.noise_profile_size 0)
      noise_profile_blocks_averaged := List.replicate NOISE_PROFILE_MODES 0
      noise_spectrum_available := List.replicate NOISE_PROFILE_MODES false })

/-! ## Spectral utilities (src/src/shared/utils/spectral_utils.c) -/

/-- `get_rolling_mean_spectrum`: updates bins `1 ≤ k < spectrum_size` of
`averaged_spectrum`; when `number_of_blocks ≤ 1` the bin is overwritten by
the current frame, otherwise it moves towards it by
`(current − averaged) / number_of_blocks`.  Bin 0 and bins beyond
`spectrum_size` are untouched.  (The C null-pointer guard lives at the
call sites, which pass valid arrays.) -/
def get_rolling_mean_spectrum (averaged_spectrum current_spectrum : List ℚ)
    (number_of_blocks spectrum_size : Nat) : List ℚ :=
  List.ofFn fun k : Fin averaged_spectrum.length =>
    if 1 ≤ (k : Nat) ∧ (k : Nat) < spectrum_size then
      if number_of_blocks ≤ 1 then current_spectrum.getD k 0
      else
        averaged_spectrum.get k +
          (current_spectrum.getD k 0 - averaged_spectrum.get k) /
            (number_of_blocks : ℚ)
    else averaged_spectrum.get k

/-- `max_spectrum`: bin-wise running maximum over bins `k < spectrum_size`. -/
def max_spectrum (spectrum_one spectrum_two : List ℚ) (spectrum_size : Nat) :
    List ℚ :=
  List.ofFn fun k : Fin spectrum_one.length =>
    if (k : Nat) < spectrum_size then
      max (spectrum_one.get k) (spectrum_two.getD k 0)
    else spectrum_one.get k

/-- `find_median` of a sorted array (mean of the two central elements when
the length is even, the central element when odd). -/
def find_median (array : List ℚ) (array_size : Nat) : ℚ :=
  if array_size % 2 = 0 then
    (array.getD ((array_size - 1) / 2) 0 + array.getD (array_size / 2) 0) / 2
  else array.getD (array_size / 2) 0

/-- `get_rolling_median_spectrum`: per bin `1 ≤ i < spectrum_size`, sorts
the bin's column of the trailing buffer, takes its median, and keeps the
running maximum of that median with the stored profile.  Returns the C
`bool` (false only when `spectrum_size` is zero; the pointer guards hold at
the call sites). -/
def get_rolling_median_spectrum (median_spectrum current_spectrum_buffer : List ℚ)
    (number_of_blocks spectrum_size : Nat) : Bool × List ℚ :=
  if spectrum_size = 0 then (false, median_spectrum)
  else
    (true,
     List.ofFn fun i : Fin median_spectrum.length =>
       if 1 ≤ (i : Nat) ∧ (i : Nat) < spectrum_size then
         let tmp_buffer :=
           ((List.range number_of_blocks).map fun j =>
             current_spectrum_buffer.getD (j * spectrum_size + i) 0).mergeSort
             (fun a b => a ≤ b)
         let median_of_buffer := find_median tmp_buffer number_of_blocks
         if median_spectrum.get i < median_of_buffer then median_of_buffer
         else median_spectrum.get i
       else median_spectrum.get i)

/-! ## Trailing buffer (src/src/shared/utils/spectral_trailing_buffer.c) -/

/-- `struct SpectralTrailingBuffer`: a flat FIFO of `buffer_size` spectra of
`real_spectrum_size` bins each. -/
structure SpectralTrailingBuffer where
  real_spectrum_size : Nat
  buffer_size : Nat
  buffer : List ℚ
deriving Repr, DecidableEq

/-- `spectral_trailing_buffer_initialize`. -/
def spectral_trailing_buffer_initialize (real_spectrum_size buffer_size : Nat) :
    SpectralTrailingBuffer :=
  { real_spectrum_size, buffer_size
    buffer := List.replicate (real_spectrum_size * buffer_size) 0 }

/-- `spectral_trailing_buffer_push_back`: shifts the flat buffer left by one
spectrum (`memmove`) and copies the input spectrum into the freed last slot
(`memcpy`). -/
def spectral_trailing_buffer_push_back (self : SpectralTrailingBuffer)
    (input_spectrum : List ℚ) : SpectralTrailingBuffer :=
  { self with
      buffer := self.buffer.drop self.real_spectrum_size ++
        input_spectrum.take self.real_spectrum_size }

/-! ## Manual noise estimator (src/src/shared/noise_estimation/noise_estimator.c) -/

/-- `struct NoiseEstimator`; the `NoiseProfile` the C struct points to is
held by value here. -/
structure NoiseEstimator where
  fft_size : Nat
  real_spectrum_size : Nat
  median_buffer : SpectralTrailingBuffer
  noise_profile : NoiseProfile
deriving Repr, DecidableEq

/-- `noise_estimation_initialize`. -/
def noise_estimation_initialize (fft_size : Nat) (noise_profile : NoiseProfile) :
    NoiseEstimator :=
  let real_spectrum_size := fft_size / 2 + 1
  { fft_size, real_spectrum_size
    median_buffer :=
      spectral_trailing_buffer_initialize real_spectrum_size NUMBER_OF_MEDIAN_SPECTRUM
    noise_profile }

/-- `noise_estimation_run` for one mode (`1` rolling mean, `2` median,
`3` max), acting on that mode's entry of the profile (see the header
comment on the repository's two `NoiseProfile` API revisions).  The rolling
mean reads the mode's `blocks_averaged` count *before* incrementing it; the
median branch marks the mode available whenever the median computation
succeeds; the max branch marks it available unconditionally. -/
def noise_estimation_run (self : NoiseEstimator) (noise_estimator_type : Int)
    (signal_spectrum : Option (List ℚ)) : Bool × NoiseEstimator :=
  match signal_spectrum with
  | none => (false, self)
  | some s =>
    let np := self.noise_profile
    let profile := (get_noise_profile np noise_estimator_type).getD []
    if noise_estimator_type = 1 then
      let updated :=
        get_rolling_mean_spectrum profile s
          (get_noise_profile_blocks_averaged np noise_estimator_type)
          self.real_spectrum_size
      let np1 := { np with
        noise_profiles := np.noise_profiles.set (modeIndex noise_estimator_type) updated }
      (true, { self with noise_profile := (increment_blocks_averaged np1 noise_estimator_type).2 })
    else if noise_estimator_type = 2 then
      let buf := spectral_trailing_buffer_push_back self.median_buffer s
      let result :=
        get_rolling_median_spectrum profile buf.buffer buf.buffer_size
          buf.real_spectrum_size
      let np1 := { np with
        noise_profiles := np.noise_profiles.set (modeIndex noise_estimator_type) result.2 }
      let np2 := if result.1 then set_noise_profile_available np1 noise_estimator_type else np1
      (true, { self with median_buffer := buf, noise_profile := np2 })
    else if noise_estimator_type = 3 then
      let updated := max_spectrum profile s self.real_spectrum_size
      let np1 := { np with
        noise_profiles := np.noise_profiles.set (modeIndex noise_estimator_type) updated }
      (true, { self with noise_profile := set_noise_profile_available np1 noise_estimator_type })
    else (true, self)

/-- One learning frame of the processors' learning branch
(`spectral_denoiser.c` / `spectral_2d_denoiser.c`): runs
`noise_estimation_run` for modes 1, 2, 3 in order on the same reference
spectrum. -/
def learn_frame (self : NoiseEstimator) (reference_spectrum : List ℚ) :
    NoiseEstimator :=
  let e1 := (noise_estimation_run self 1 (some reference_spectrum)).2
  let e2 := (noise_estimation_run e1 2 (some reference_spectrum)).2
  (noise_estimation_run e2 3 (some reference_spectrum)).2

/-- A sequence of learning frames. -/
def learn_frames (self : NoiseEstimator) (frames : List (List ℚ)) :
    NoiseEstimator :=
  frames.foldl learn_frame self

/-! ## FFT size and STFT processor
(src/src/shared/utils/general_utils.c, src/src/shared/stft/fft_transform.c,
src/src/shared/stft/stft_processor.c) -/

/-- `get_next_divisible_two` from `general_utils.c`: the even number nearest
to `number` (preferring the lower one on ties), computed exactly as the C
does with truncating division; all call sites pass a nonnegative frame
size. -/
def get_next_divisible_two (number : Nat) : Nat :=
  let q := number / 2
  let n1 := 2 * q
  let n2 := if 0 < number * 2 then 2 * (q + 1) else 2 * (q - 1)
  if (number : Int).natAbs - n1 < ((number : Int) - n2).natAbs then n1 else n2

/-- `calculate_fft_size` under the `NO_PADDING` configuration used by every
processor (`PADDING_CONFIGURATION_GENERAL`/`_SPEECH` are `NO_PADDING`). -/
def calculate_fft_size (frame_size : Nat) : Nat :=
  get_next_divisible_two frame_size

/-- `frame_size` derivation in `stft_processor_initialize`:
`(uint32_t)((stft_frame_size / 1000.F) * (float)sample_rate)` (truncation
toward zero of a nonnegative value). -/
def stft_frame_size_samples (sample_rate : Nat) (stft_frame_size : ℚ) : Nat :=
  (⌊stft_frame_size / 1000 * (sample_rate : ℚ)⌋).toNat

/-- The scalar geometry of `struct StftProcessor` (buffers, windows and the
FFT plan carry no information the claims need). -/
structure StftProcessor where
  input_latency : Nat
  hop : Nat
  overlap_factor : Nat
  fft_size : Nat
  frame_size : Nat
deriving Repr, DecidableEq

/-- `stft_processor_initialize`: derives `frame_size`, the FFT size (no
padding), `hop = frame_size / overlap_factor` and
`input_latency = frame_size - hop`. -/
def stft_processor_initialize (sample_rate : Nat) (stft_frame_size : ℚ)
    (overlap_factor : Nat) : StftProcessor :=
  let frame_size := stft_frame_size_samples sample_rate stft_frame_size
  let fft_size := calculate_fft_size frame_size
  let hop := frame_size / overlap_factor
  { input_latency := frame_size - hop, hop, overlap_factor, fft_size, frame_size }

/-- `get_stft_latency`. -/
def get_stft_latency (self : StftProcessor) : Nat := self.input_latency

/-- `get_stft_fft_size`. -/
def get_stft_fft_size (self : StftProcessor) : Nat := self.fft_size

/-- `get_stft_real_spectrum_size` (`fft_size / 2 + 1`, from
`get_fft_real_spectrum_size` in `fft_transform.c`). -/
def get_stft_real_spectrum_size (self : StftProcessor) : Nat :=
  self.fft_size / 2 + 1

/-- `OVERLAP_FACTOR_GENERAL` (manual and 2-D configuration). -/
def OVERLAP_FACTOR_GENERAL : Nat := 4

/-- `OVERLAP_FACTOR_SPEECH` (adaptive configuration). -/
def OVERLAP_FACTOR_SPEECH : Nat := 2

/-! ## Top-level processor handles
(src/src/processors/specbleach_denoiser.c, specbleach_adenoiser.c,
specbleach_2d_denoiser.c) -/

/-- `struct SbSpectralDenoiser` (manual denoiser handle), restricted to the
fields the claims touch. -/
structure SbSpectralDenoiser where
  sample_rate : Nat
  stft_processor : StftProcessor
  noise_profile : NoiseProfile
deriving Repr, DecidableEq

/-- `specbleach_initialize` (allocation failure not modelled): the STFT
processor uses `OVERLAP_FACTOR_GENERAL`, and the noise profile is allocated
with `real_spectrum_size` bins. -/
def specbleach_initialize (sample_rate : Nat) (frame_size : ℚ) :
    SbSpectralDenoiser :=
  let stft := stft_processor_initialize sample_rate frame_size OVERLAP_FACTOR_GENERAL
  { sample_rate
    stft_processor := stft
    noise_profile := noise_profile_initialize (get_stft_real_spectrum_size stft) }

/-- `specbleach_get_latency`. -/
def specbleach_get_latency (self : SbSpectralDenoiser) : Nat :=
  get_stft_latency self.stft_processor

/-- `specbleach_get_noise_profile_size`. -/
def specbleach_get_noise_profile_size (self : SbSpectralDenoiser) : Nat :=
  get_noise_profile_size self.noise_profile

/-- `struct SbAdenoiser` (adaptive denoiser handle), restricted to the
fields the claims touch. -/
structure SbAdenoiser where
  sample_rate : Nat
  stft_processor : StftProcessor
deriving Repr, DecidableEq

/-- `specbleach_adaptive_initialize`: the STFT processor uses
`OVERLAP_FACTOR_SPEECH`. -/
def specbleach_adaptive_initialize (sample_rate : Nat) (frame_size : ℚ) :
    SbAdenoiser :=
  { sample_rate
    stft_processor :=
      stft_processor_initialize sample_rate frame_size OVERLAP_FACTOR_SPEECH }

/-- `specbleach_adaptive_get_latency`. -/
def specbleach_adaptive_get_latency (self : SbAdenoiser) : Nat :=
  get_stft_latency self.stft_processor

/-- `NLM_SEARCH_RANGE_TIME_FUTURE`.  Modelled from the spec: the constant's
defining header is not under `src/`; the spec fixes the NLM future
half-range (look-ahead) `T₊` at 4 frames, and
`nlm_filter_get_latency_frames` returns exactly this configuration field. -/
def NLM_SEARCH_RANGE_TIME_FUTURE : Nat := 4

/-- `struct Sb2DDenoiser` (2-D denoiser handle), restricted to the fields
the claims touch.  `hop` is the handle's own copy
`fft_size / OVERLAP_FACTOR_GENERAL`. -/
structure Sb2DDenoiser where
  sample_rate : Nat
  hop : Nat
  stft_processor : StftProcessor
  noise_profile : NoiseProfile
deriving Repr, DecidableEq

/-- `specbleach_2d_initialize`: same STFT configuration as the manual
denoiser, but the noise profile is allocated with `fft_size` bins (not
`real_spectrum_size`). -/
def specbleach_2d_initialize (sample_rate : Nat) (frame_size : ℚ) :
    Sb2DDenoiser :=
  let stft := stft_processor_initialize sample_rate frame_size OVERLAP_FACTOR_GENERAL
  let fft_size := get_stft_fft_size stft
  { sample_rate
    hop := fft_size / OVERLAP_FACTOR_GENERAL
    stft_processor := stft
    noise_profile := noise_profile_initialize fft_size }

/-- `spectral_2d_denoiser_get_latency_frames`, which returns
`nlm_filter_get_latency_frames` = the NLM future search half-range. -/
def spectral_2d_denoiser_get_latency_frames : Nat := NLM_SEARCH_RANGE_TIME_FUTURE

/-- `specbleach_2d_get_latency`: STFT latency plus the NLM look-ahead in
samples (`latency_frames * hop`). -/
def specbleach_2d_get_latency (self : Sb2DDenoiser) : Nat :=
  get_stft_latency self.stft_processor +
    spectral_2d_denoiser_get_latency_frames * self.hop

/-- `specbleach_2d_get_noise_profile_size`. -/
def specbleach_2d_get_noise_profile_size (self : Sb2DDenoiser) : Nat :=
  get_noise_profile_size self.noise_profile

/-- `specbleach_2d_load_noise_profile_for_mode`: validates the mode range
and the size against the stored profile size, then delegates to
`set_noise_profile` for that mode and returns true. -/
def specbleach_2d_load_noise_profile_for_mode (self : Sb2DDenoiser)
    (restored_profile : Option (List ℚ)) (profile_size averaged_blocks : Nat)
    (mode : Int) : Bool × Sb2DDenoiser :=
  match restored_profile with
  | none => (false, self)
  | some p =>
    if mode < 1 || mode > 3 then (false, self)
    else if profile_size ≠ get_noise_profile_size self.noise_profile then (false, self)
    else
      (true,
       { self with noise_profile :=
          (set_noise_profile self.noise_profile mode (some p) profile_size
            averaged_blocks).2 })

/-- `specbleach_2d_get_noise_profile_for_mode`. -/
def specbleach_2d_get_noise_profile_for_mode (self : Sb2DDenoiser) (mode : Int) :
    Option (List ℚ) :=
  get_noise_profile self.noise_profile mode

/-- `specbleach_2d_get_noise_profile_blocks_averaged_for_mode`. -/
def specbleach_2d_get_noise_profile_blocks_averaged_for_mode
    (self : Sb2DDenoiser) (mode : Int) : Nat :=
  get_noise_profile_blocks_averaged self.noise_profile mode

/-- `specbleach_2d_noise_profile_available_for_mode`. -/
def specbleach_2d_noise_profile_available_for_mode (self : Sb2DDenoiser)
    (mode : Int) : Bool :=
  is_noise_estimation_available self.noise_profile mode

/-! ## Claim C4 (rolling-mean update rule) -/

/-- Fresh 2-bin estimator after learning the frame `[3, 4]` in rolling-mean
mode. -/
def rolling_mean_frame1 : NoiseEstimator :=
  (noise_estimation_run ( noise_estimation_initialize 2 ( noise_profile_initialize 2))
    1 (some [3, 4])).2

/-- The state `rolling_mean_frame1` after also learning `[5, 8]`. -/
def rolling_mean_frame2 : NoiseEstimator :=
  (noise_estimation_run rolling_mean_frame1 1 (some [5, 8])).2

/-- A small estimator state with two blocks already averaged, used to
witness the rolling-mean update law on its division branch. -/
def rolling_mean_witness_state : NoiseEstimator :=
  { fft_size := 2, real_spectrum_size := 2
    median_buffer := spectral_trailing_buffer_initialize 2 5
    noise_profile :=
      { noise_profile_size := 2
        noise_profiles := [[1, 2], [0, 0], [0, 0]]
        noise_profile_blocks_averaged := [2, 0, 0]
        noise_spectrum_available := [false, false, false] } }

/-- A small 2-D handle (profile size 2) used to witness the load/get laws. -/
def profile_fixture_2d : Sb2DDenoiser :=
  { sample_rate := 44100, hop := 220
    stft_processor :=
      { input_latency := 662, hop := 220, overlap_factor := 4
        fft_size := 882, frame_size := 882 }
    noise_profile := noise_profile_initialize 2 }

/-! ## Claim C8 (process guard semantics)
(src/src/shared/stft/stft_processor.c, src/src/processors/specbleach_denoiser.c) -/

/-- `stft_processor_run`: validates the handle, the input and output
pointers and the sample count, then runs the per-sample loop.  The loop
body (circular-buffer fill and, on each full hop, window/FFT/callback/
inverse-FFT/overlap-add on the combined state) is abstracted as `step` on
the state type `σ`; the guard and the loop shape are translated from the
source.  Returns `(bool, state, output samples)`; on guard failure the
state and the output buffer are returned untouched. -/
def stft_processor_run {σ : Type} (step : σ → ℚ → σ × ℚ) (state : σ)
    (number_of_samples : Nat) (input output : Option (List ℚ)) :
    Bool × σ × List ℚ :=
  match input, output with
  | some inp, some outbuf =>
    if number_of_samples = 0 then (false, state, outbuf)
    else
      let xs := (List.range number_of_samples).map fun k => inp.getD k 0
      let r := xs.foldl (fun (acc : σ × List ℚ) x =>
          ((step acc.1 x).1, acc.2 ++ [(step acc.1 x).2])) (state, [])
      (true, r.1, r.2 ++ outbuf.drop number_of_samples)
  | _, _ => (false, state, output.getD [])

/-- `specbleach_process`: returns false when the handle, the input buffer
or the output buffer is null or the sample count is zero, leaving the state
and output untouched; otherwise drives `stft_processor_run` (whose result
it ignores) and returns true. -/
def specbleach_process {σ : Type} (step : σ → ℚ → σ × ℚ) (inst : Option σ)
    (number_of_samples : Nat) (input output : Option (List ℚ)) :
    Bool × Option σ × List ℚ :=
  match inst, input, output with
  | some st, some inp, some outbuf =>
    if number_of_samples = 0 then (false, some st, outbuf)
    else
      let r := stft_processor_run step st number_of_samples (some inp) (some outbuf)
      (true, some r.2.1, r.2.2)
  | _, _, _ => (false, inst, output.getD [])

/-! ## SPP/MMSE noise estimator
(src/src/shared/noise_estimation/spp_mmse_noise_estimator.c,
constants from src/src/shared/configurations.h) -/

/-- `SPP_FIXED_XI_H1 = 31.62` (fixed a-priori SNR, 15 dB linear). -/
def SPP_FIXED_XI_H1 : ℚ := 1581 / 50

/-- `SPP_ALPHA_POW = 0.8` (power-spectrum smoothing factor). -/
def SPP_ALPHA_POW : ℚ := 4 / 5

/-- `SPP_SMOOTH_SPP = 0.9` (SPP smoothing for stagnation control). -/
def SPP_SMOOTH_SPP : ℚ := 9 / 10

/-- `SPP_CURRENT_SPP = 0.1` (current-SPP weighting). -/
def SPP_CURRENT_SPP : ℚ := 1 / 10

/-- `SPP_STAGNATION_CAP = 0.99`. -/
def SPP_STAGNATION_CAP : ℚ := 99 / 100

/-- `ESTIMATOR_SILENCE_THRESHOLD`.  Modelled from the spec: the constant's
defining header is not under `src/`; the spec puts the estimators' silence
gate at ≈ 1e-8. -/
def ESTIMATOR_SILENCE_THRESHOLD : ℚ := 1 / 10 ^ 8

/-- `compute_spp_probability`: floors the previous noise PSD at 1e-12 and
evaluates the closed-form speech-presence probability.  `e` stands for the
C library's `expf`; the `isfinite` guard on its result is a float-overflow
guard that has no counterpart in the exact rational model. -/
def compute_spp_probability (e : ℚ → ℚ)
    (observation_power previous_noise_psd : ℚ) : ℚ :=
  let psd := if previous_noise_psd < 1 / 10 ^ 12 then 1 / 10 ^ 12
             else previous_noise_psd
  let ratio := observation_power / psd
  let exponent := -ratio * (SPP_FIXED_XI_H1 / (1 + SPP_FIXED_XI_H1))
  let exp_term := e exponent
  let denominator_ratio := (1 + SPP_FIXED_XI_H1) * exp_term
  let spp := 1 / (1 + denominator_ratio)
  max 0 (min 1 spp)

/-- `compute_mmse_noise_estimate`:
`E{|N|²|Y} = P(H0)·Y² + P(H1)·σ²`. -/
def compute_mmse_noise_estimate (spp_h1 spp_h0 observation_power
    previous_noise_psd : ℚ) : ℚ :=
  spp_h0 * observation_power + spp_h1 * previous_noise_psd

/-- `struct SppMmseNoiseEstimator`. -/
structure SppMmseNoiseEstimator where
  noise_spectrum_size : Nat
  spp_previous_noise_psd : List ℚ
  spp_smoothed_spp : List ℚ
  is_first_frame : Bool
deriving Repr, DecidableEq

/-- `spp_mmse_noise_estimator_initialize`. -/
def spp_mmse_noise_estimator_initialize (noise_spectrum_size : Nat) :
    SppMmseNoiseEstimator :=
  { noise_spectrum_size
    spp_previous_noise_psd := List.replicate noise_spectrum_size 0
    spp_smoothed_spp := List.replicate noise_spectrum_size 0
    is_first_frame := true }

/-- The per-bin body of the SPP/MMSE update loop: returns the new noise
estimate for the bin (also stored as the new previous PSD) and the new
IIR-smoothed SPP. -/
def spp_mmse_bin (e : ℚ → ℚ) (observation_power previous_noise_psd
    smoothed_spp : ℚ) : ℚ × ℚ :=
  let spp_raw := compute_spp_probability e observation_power previous_noise_psd
  let spp_h1 := if smoothed_spp > SPP_STAGNATION_CAP
                then min spp_raw SPP_STAGNATION_CAP else spp_raw
  let spp_h0 := 1 - spp_h1
  let mmse := compute_mmse_noise_estimate spp_h1 spp_h0 observation_power
    previous_noise_psd
  (SPP_ALPHA_POW * previous_noise_psd + (1 - SPP_ALPHA_POW) * mmse,
   SPP_SMOOTH_SPP * smoothed_spp + SPP_CURRENT_SPP * spp_h1)

/-- `spp_mmse_noise_estimator_run`: silence gates on the mean frame energy,
first-frame snap to the observed spectrum, and otherwise the per-bin
SPP/MMSE update (the bins are independent, so the C loop is a map).
Returns `(bool, state, noise_spectrum)`. -/
def spp_mmse_noise_estimator_run (e : ℚ → ℚ) (self : SppMmseNoiseEstimator)
    (spectrum : Option (List ℚ)) :
    Bool × SppMmseNoiseEstimator × List ℚ :=
  match spectrum with
  | none => (false, self, [])
  | some s =>
    let size := self.noise_spectrum_size
    let frame_energy :=
      (((List.range size).map fun k => s.getD k 0).sum) / (size : ℚ)
    if self.is_first_frame then
      if frame_energy < ESTIMATOR_SILENCE_THRESHOLD then
        (true, self, List.replicate size 0)
      else
        (true,
         { self with
            spp_previous_noise_psd := (List.range size).map fun k => s.getD k 0
            spp_smoothed_spp := List.replicate size 0
            is_first_frame := false },
         (List.range size).map fun k => s.getD k 0)
    else
      if frame_energy < ESTIMATOR_SILENCE_THRESHOLD then
        (true, self, self.spp_previous_noise_psd.take size)
      else
        let noise := (List.range size).map fun k =>
          (spp_mmse_bin e (s.getD k 0) (self.spp_previous_noise_psd.getD k 0)
            (self.spp_smoothed_spp.getD k 0)).1
        let smoothed := (List.range size).map fun k =>
          (spp_mmse_bin e (s.getD k 0) (self.spp_previous_noise_psd.getD k 0)
            (self.spp_smoothed_spp.getD k 0)).2
        (true,
         { self with spp_previous_noise_psd := noise
                     spp_smoothed_spp := smoothed },
         noise)

/-- The claim's closed-form speech-presence probability
`P(H1|Y) = 1 / (1 + (1 + ξ)·exp(−(Y/σ)·ξ/(1+ξ)))` with `ξ = SPP_FIXED_XI_H1`,
stated from the spec's words for comparison with the code's
`compute_spp_probability`. -/
def sppClaimProbability (e : ℚ → ℚ) (observation_power previous_noise_psd : ℚ) : ℚ :=
  1 / (1 + (1 + SPP_FIXED_XI_H1) *
    e (-(observation_power / previous_noise_psd) *
        (SPP_FIXED_XI_H1 / (1 + SPP_FIXED_XI_H1))))

/-- The claim's clipping rule: the instantaneous SPP is capped at 0.99
exactly when the stored IIR-smoothed SPP exceeds 0.99. -/
def sppClaimClipped (e : ℚ → ℚ) (observation_power previous_noise_psd
    smoothed_spp : ℚ) : ℚ :=
  if smoothed_spp > SPP_STAGNATION_CAP then
    min (sppClaimProbability e observation_power previous_noise_psd)
      SPP_STAGNATION_CAP
  else sppClaimProbability e observation_power previous_noise_psd

/-- A one-bin SPP/MMSE state past its first frame, used as witness input. -/
def spp_witness_state : SppMmseNoiseEstimator :=
  { noise_spectrum_size := 1
    spp_previous_noise_psd := [1]
    spp_smoothed_spp := [0]
    is_first_frame := false }

/-! ## Martin minimum-statistics estimator
(src/src/shared/noise_estimation/martin_noise_estimator.c) -/

/-- `MARTIN_SMOOTH_ALPHA`.  Modelled from the spec: the constant's defining
header is not under `src/`; the spec gives α_smooth ≈ 0.9. -/
def MARTIN_SMOOTH_ALPHA : ℚ := 9 / 10

/-- `MARTIN_BIAS_CORR`.  Modelled from the spec: the constant's defining
header is not under `src/`; the spec gives the bias factor ≈ 1.5. -/
def MARTIN_BIAS_CORR : ℚ := 3 / 2

/-- `MARTIN_SUBWIN_LEN`.  Modelled from the spec: sub-window length `L` =
24 frames. -/
def MARTIN_SUBWIN_LEN : Nat := 24

/-- `MARTIN_SUBWIN_COUNT`.  Modelled from the spec: history depth `D` =
8 sub-windows. -/
def MARTIN_SUBWIN_COUNT : Nat := 8

/-- `struct MartinNoiseEstimator`; `subwin_history` is the flat
`size × MARTIN_SUBWIN_COUNT` array indexed by `k * MARTIN_SUBWIN_COUNT + d`. -/
structure MartinNoiseEstimator where
  noise_spectrum_size : Nat
  smoothed_psd : List ℚ
  current_subwin_min : List ℚ
  subwin_history : List ℚ
  frame_count : Nat
  subwin_index : Nat
  is_first_frame : Bool
deriving Repr, DecidableEq

/-- `martin_noise_estimator_initialize`. -/
def martin_noise_estimator_initialize (noise_spectrum_size : Nat) :
    MartinNoiseEstimator :=
  { noise_spectrum_size
    smoothed_psd := List.replicate noise_spectrum_size 0
    current_subwin_min := List.replicate noise_spectrum_size 0
    subwin_history := List.replicate (noise_spectrum_size * MARTIN_SUBWIN_COUNT) 0
    frame_count := 0
    subwin_index := 0
    is_first_frame := true }

/-- Step 1 of the Martin update: first-order smoothing of the PSD. -/
def martin_psd_update (old_psd s_k : ℚ) : ℚ :=
  MARTIN_SMOOTH_ALPHA * old_psd + (1 - MARTIN_SMOOTH_ALPHA) * s_k

/-- The inner minimum of `calculate_output`: the running minimum over the
bin's `MARTIN_SUBWIN_COUNT` history entries, seeded with `init` (the bin's
current sub-window minimum). -/
def martin_history_min (hist : List ℚ) (k : Nat) (init : ℚ) : ℚ :=
  (List.range MARTIN_SUBWIN_COUNT).foldl
    (fun m d =>
      if hist.getD (k * MARTIN_SUBWIN_COUNT + d) 0 < m then
        hist.getD (k * MARTIN_SUBWIN_COUNT + d) 0
      else m)
    init

/-- `martin_noise_estimator_run`: silence gates on the mean frame energy;
the first frame seeds every buffer with `spectrum / MARTIN_BIAS_CORR` and
outputs the spectrum; later frames smooth the PSD, track the sub-window
minimum, rotate the minimum into the circular history every
`MARTIN_SUBWIN_LEN` frames, and output the bias-corrected global minimum.
In silence the updates are skipped (`goto calculate_output`) but the output
is still produced and the frame counter still advances.  Returns
`(bool, state, noise_spectrum)`. -/
def martin_noise_estimator_run (self : MartinNoiseEstimator)
    (spectrum : Option (List ℚ)) :
    Bool × MartinNoiseEstimator × List ℚ :=
  match spectrum with
  | none => (false, self, [])
  | some s =>
    let size := self.noise_spectrum_size
    let frame_energy :=
      (((List.range size).map fun k => s.getD k 0).sum) / (size : ℚ)
    if self.is_first_frame then
      if frame_energy < ESTIMATOR_SILENCE_THRESHOLD then
        (true, self, List.replicate size 0)
      else
        let vals := (List.range size).map fun k => s.getD k 0 / MARTIN_BIAS_CORR
        (true,
         { self with
            smoothed_psd := vals
            current_subwin_min := vals
            subwin_history := (List.range (size * MARTIN_SUBWIN_COUNT)).map
              fun i => s.getD (i / MARTIN_SUBWIN_COUNT) 0 / MARTIN_BIAS_CORR
            is_first_frame := false
            frame_count := 1 },
         (List.range size).map fun k => s.getD k 0)
    else if frame_energy < ESTIMATOR_SILENCE_THRESHOLD then
      let out := (List.range size).map fun k =>
        martin_history_min self.subwin_history k
          (self.current_subwin_min.getD k 0) * MARTIN_BIAS_CORR
      (true, { self with frame_count := self.frame_count + 1 }, out)
    else
      let psd := (List.range size).map fun k =>
        martin_psd_update (self.smoothed_psd.getD k 0) (s.getD k 0)
      let cmin := (List.range size).map fun k =>
        if martin_psd_update (self.smoothed_psd.getD k 0) (s.getD k 0) <
            self.current_subwin_min.getD k 0 then
          martin_psd_update (self.smoothed_psd.getD k 0) (s.getD k 0)
        else self.current_subwin_min.getD k 0
      if self.frame_count ≥ MARTIN_SUBWIN_LEN then
        let hist := (List.range (size * MARTIN_SUBWIN_COUNT)).map fun i =>
          if i % MARTIN_SUBWIN_COUNT = self.subwin_index then
            cmin.getD (i / MARTIN_SUBWIN_COUNT) 0
          else self.subwin_history.getD i 0
        let out := (List.range size).map fun k =>
          martin_history_min hist k (psd.getD k 0) * MARTIN_BIAS_CORR
        (true,
         { self with
            smoothed_psd := psd
            current_subwin_min := psd
            subwin_history := hist
            subwin_index := (self.subwin_index + 1) % MARTIN_SUBWIN_COUNT
            frame_count := 0 + 1 },
         out)
      else
        let out := (List.range size).map fun k =>
          martin_history_min self.subwin_history k (cmin.getD k 0) *
            MARTIN_BIAS_CORR
        (true,
         { self with
            smoothed_psd := psd
            current_subwin_min := cmin
            frame_count := self.frame_count + 1 },
         out)

/-- State of the Martin estimator after one constant frame `[1]` on a
single-bin instance. -/
def martin_frame1 : MartinNoiseEstimator :=
  (martin_noise_estimator_run ( martin_noise_estimator_initialize 1)
    (some [1])).2.1

/-! ## Post-filter (src/src/shared/post_estimation/postfilter.c)

`postfilter.h` in the tree is an older revision declaring only
`snr_threshold`; `postfilter.c` and both processor call sites also read a
`gain_floor` field, which the model includes. -/

/-- `POSTFILTER_SCALE` from `configurations.h`. -/
def POSTFILTER_SCALE : ℚ := 10

/-- `PRESERVE_MINIMUN_GAIN` from `configurations.h` (spelling kept). -/
def PRESERVE_MINIMUN_GAIN : Bool := true

/-- `struct PostFilter`.  The `min_gain_coefficient` field
(`10^(POSTFILTER_MIN_GAIN_DB/20)`, an irrational float) is initialized but
never read by `postfilter_apply`, so it is omitted from the model. -/
structure PostFilter where
  fft_size : Nat
  real_spectrum_size : Nat
  preserve_minimum : Bool
  default_postfilter_scale : ℚ
deriving Repr, DecidableEq

/-- `postfilter_initialize`. -/
def postfilter_initialize (fft_size : Nat) : PostFilter :=
  { fft_size
    real_spectrum_size := fft_size / 2 + 1
    preserve_minimum := PRESERVE_MINIMUN_GAIN
    default_postfilter_scale := POSTFILTER_SCALE }

/-- `PostFiltersParameters` as read by `postfilter_apply`. -/
structure PostFiltersParameters where
  snr_threshold : ℚ
  gain_floor : ℚ
deriving Repr, DecidableEq

/-- C `roundf` for the nonnegative arguments reached in
`get_adaptive_window_size` (round half away from zero = floor of `x + 1/2`
for `x ≥ 0`). -/
def roundq (x : ℚ) : Int := ⌊x + 1 / 2⌋

/-- `get_adaptive_window_size`: the a-posteriori SNR
`ζ = Σ(spectrum·gain)² / Σspectrum²` over the real bins selects the
moving-average width: 1 when the reference energy is negligible, when
`ζ ≥ snr_threshold`, or when the thresholded `ζ` reaches 1; otherwise
`2·round(scale·(1 − ζ/snr_threshold)) + 1`. -/
def get_adaptive_window_size (self : PostFilter) (spectrum : List ℚ)
    (snr_threshold : ℚ) (gain_spectrum : List ℚ) : Nat :=
  let clean_energy := ((List.range self.real_spectrum_size).map fun k =>
    spectrum.getD k 0 * gain_spectrum.getD k 0 *
      (spectrum.getD k 0 * gain_spectrum.getD k 0)).sum
  let noisy_energy := ((List.range self.real_spectrum_size).map fun k =>
    spectrum.getD k 0 * spectrum.getD k 0).sum
  if noisy_energy ≤ 1 / 10 ^ 12 then 1
  else
    let zeta := clean_energy / noisy_energy
    let zeta_t := if zeta ≥ snr_threshold then 1 else zeta
    if zeta_t ≥ 1 then 1
    else
      (2 * roundq (self.default_postfilter_scale * (1 - zeta_t / snr_threshold))
        + 1).toNat

/-- Boundary policy of the moving average: clamp an index into
`[0, size)`. -/
def clampIdx (size : Nat) (j : Int) : Nat :=
  if j < 0 then 0 else if j ≥ (size : Int) then size - 1 else j.toNat

/-- The clamp-to-edge window sum of width `2·half + 1` centered at `c`. -/
def windowSum (inl : List ℚ) (size half : Nat) (c : Int) : ℚ :=
  ∑ d ∈ Finset.range (2 * half + 1),
    inl.getD (clampIdx size (c + (d : Int) - (half : Int))) 0

/-- The running-sum loop of `moving_average`: emits `current_sum / n` and
slides the window by removing the clamped oldest index and adding the
clamped newest one (the slide is skipped on the last iteration, as in the
C). -/
def ma_loop (inl : List ℚ) (size n half : Nat) (i : Nat) (current_sum : ℚ) :
    List ℚ :=
  if _h : i < size then
    current_sum / (n : ℚ) ::
      ma_loop inl size n half (i + 1)
        (if i + 1 < size then
          current_sum - inl.getD (clampIdx size ((i : Int) - (half : Int))) 0 +
            inl.getD (clampIdx size ((i : Int) + (half : Int) + 1)) 0
        else current_sum)
  else []
termination_by size - i

/-- `moving_average`: copies the input when `n ≤ 1` or `n > size`,
otherwise runs the running-sum loop seeded with the initial clamped window
sum at index 0. -/
def moving_average (inl : List ℚ) (size n : Nat) : List ℚ :=
  if n ≤ 1 ∨ n > size then inl.take size
  else ma_loop inl size n (n / 2) 0 (windowSum inl size (n / 2) 0)

/-- `postfilter_apply`: computes the adaptive window size; when it exceeds
1, moving-averages the first `real_spectrum_size` gains and (with
`preserve_minimum`) takes the per-bin minimum of original and smoothed
gain; finally clamps the first `real_spectrum_size` gains from below at
`gain_floor`. -/
def postfilter_apply (self : PostFilter) (spectrum gain_spectrum : Option (List ℚ))
    (parameters : PostFiltersParameters) : Bool × List ℚ :=
  match spectrum, gain_spectrum with
  | some sp, some g =>
    let n := get_adaptive_window_size self sp parameters.snr_threshold g
    let g1 :=
      if 1 < n then
        let intermediate := moving_average g self.real_spectrum_size n
        if self.preserve_minimum then
          List.ofFn fun k : Fin g.length =>
            if (k : Nat) < self.real_spectrum_size then
              min (g.getD k 0) (intermediate.getD k 0)
            else g.getD k 0
        else
          List.ofFn fun k : Fin g.length =>
            if (k : Nat) < self.real_spectrum_size then intermediate.getD k 0
            else g.getD k 0
      else g
    (true,
     List.ofFn fun k : Fin g1.length =>
       if (k : Nat) < self.real_spectrum_size ∧ g1.getD k 0 < parameters.gain_floor
       then parameters.gain_floor
       else g1.getD k 0)
  | _, _ => (false, gain_spectrum.getD [])

/-- The window size exactly as the claim describes it: `n = 1` iff
`ζ ≥ snr_threshold`, else `n = 2·round(scale·(1 − ζ/snr_threshold)) + 1`. -/
def claimed_window_size (self : PostFilter) (spectrum gain_spectrum : List ℚ)
    (snr_threshold : ℚ) : Nat :=
  let clean_energy := ((List.range self.real_spectrum_size).map fun k =>
    spectrum.getD k 0 * gain_spectrum.getD k 0 *
      (spectrum.getD k 0 * gain_spectrum.getD k 0)).sum
  let noisy_energy := ((List.range self.real_spectrum_size).map fun k =>
    spectrum.getD k 0 * spectrum.getD k 0).sum
  let zeta := clean_energy / noisy_energy
  if zeta ≥ snr_threshold then 1
  else (2 * roundq (self.default_postfilter_scale *
    (1 - zeta / snr_threshold)) + 1).toNat

/-- The post-filter exactly as the claim describes it, for comparison with
`postfilter_apply`: the claimed window size, a clamp-to-edge moving average
of width `n`, the per-bin minimum with the original gain, and a final clamp
of the real bins to `[gain_floor, 1]`. -/
def postfilter_apply_as_claimed (self : PostFilter) (spectrum gain_spectrum : List ℚ)
    (parameters : PostFiltersParameters) : List ℚ :=
  let n : Nat := claimed_window_size self spectrum gain_spectrum parameters.snr_threshold
  List.ofFn fun k : Fin gain_spectrum.length =>
    if (k : Nat) < self.real_spectrum_size then
      max parameters.gain_floor (min 1
        (min (gain_spectrum.getD k 0)
          (windowSum gain_spectrum self.real_spectrum_size (n / 2) (k : Int) /
            (n : ℚ))))
    else gain_spectrum.getD k 0

example : (set_noise_profile ( noise_profile_initialize 2) 1 (some [3, 4]) 2 7).2.noise_profiles
    = [[3, 4], [0, 0], [0, 0]] := by decide

example : is_noise_estimation_available
    (increment_blocks_averaged ( noise_profile_initialize 1) 1).2 1 = false := by decide

example :
    (learn_frames ( noise_estimation_initialize 2 ( noise_profile_initialize 2))
      (List.replicate 5 [1, 1])).noise_profile.noise_spectrum_available
    = [false, true, true] := by decide

example :
    (learn_frames ( noise_estimation_initialize 2 ( noise_profile_initialize 2))
      (List.replicate 6 [1, 1])).noise_profile.noise_spectrum_available
    = [true, true, true] := by decide

example : stft_frame_size_samples 44100 20 = 882 := by
  simp [stft_frame_size_samples]
  norm_num
  try decide

example : specbleach_get_latency ( specbleach_initialize 44100 20) = 662 := by
  simp [specbleach_get_latency, specbleach_initialize, stft_processor_initialize,
    get_stft_latency, stft_frame_size_samples, OVERLAP_FACTOR_GENERAL]
  norm_num
  try decide

example : specbleach_2d_get_latency ( specbleach_2d_initialize 44100 20) = 1542 := by
  simp [specbleach_2d_get_latency, specbleach_2d_initialize, stft_processor_initialize,
    get_stft_latency, get_stft_fft_size, stft_frame_size_samples, calculate_fft_size,
    get_next_divisible_two, spectral_2d_denoiser_get_latency_frames,
    NLM_SEARCH_RANGE_TIME_FUTURE, OVERLAP_FACTOR_GENERAL]
  norm_num
  try decide

example : specbleach_2d_get_noise_profile_size ( specbleach_2d_initialize 44100 20) = 882 := by
  simp [specbleach_2d_get_noise_profile_size, specbleach_2d_initialize,
    stft_processor_initialize, get_stft_fft_size, stft_frame_size_samples,
    calculate_fft_size, get_next_divisible_two, noise_profile_initialize,
    get_noise_profile_size, OVERLAP_FACTOR_GENERAL]
  norm_num
  try decide

example : specbleach_get_noise_profile_size ( specbleach_initialize 44100 20) = 442 := by
  simp [specbleach_get_noise_profile_size, specbleach_initialize,
    stft_processor_initialize, get_stft_real_spectrum_size, stft_frame_size_samples,
    calculate_fft_size, get_next_divisible_two, noise_profile_initialize,
    get_noise_profile_size, OVERLAP_FACTOR_GENERAL]
  norm_num
  try decide

/-! ## Claim C1 (latency reporting) -/

/-- C1: evaluation of the latency accessors at the spec's concrete scenario
(44100 Hz, 20 ms frame, hence `frame_samples = 882`).  The claim (and the
repository's own `test_stft_latency.c`) state that the manual and adaptive
latency is `frame_samples = 882`, but `get_stft_latency` returns
`input_latency = frame_size - hop`, i.e. 662 for the manual denoiser
(overlap 4), 441 for the adaptive denoiser (overlap 2), and the 2-D latency
is `662 + T₊·hop = 1542` rather than `882 + T₊·hop = 1762`. -/
theorem latency_code_values_at_44100_20ms :
    specbleach_get_latency ( specbleach_initialize 44100 20) = 662 ∧
    ( specbleach_initialize 44100 20).stft_processor.frame_size = 882 ∧
    specbleach_adaptive_get_latency ( specbleach_adaptive_initialize 44100 20) = 441 ∧
    specbleach_2d_get_latency ( specbleach_2d_initialize 44100 20) = 1542 ∧
    662 ≠ 882 := by
  refine ⟨?_, ?_, ?_, ?_, by decide⟩ <;>
    · simp [specbleach_get_latency, specbleach_initialize,
        specbleach_adaptive_get_latency, specbleach_adaptive_initialize,
        specbleach_2d_get_latency, specbleach_2d_initialize,
        stft_processor_initialize, get_stft_latency, get_stft_fft_size,
        stft_frame_size_samples, calculate_fft_size, get_next_divisible_two,
        spectral_2d_denoiser_get_latency_frames, NLM_SEARCH_RANGE_TIME_FUTURE,
        OVERLAP_FACTOR_GENERAL, OVERLAP_FACTOR_SPEECH]
      norm_num
      try decide

/-! ## Claim C2 (noise profile size) -/

/-- C2 counterexample: for the 2-D family the claim fails.  At 44100 Hz and
20 ms the FFT size is `N = 882`, so `real_bins = N/2 + 1 = 442`, but
`specbleach_2d_get_noise_profile_size` returns 882 (the profile is
allocated with `fft_size` bins in `specbleach_2d_initialize`). -/
theorem profile_size_2d_counterexample :
    specbleach_2d_get_noise_profile_size ( specbleach_2d_initialize 44100 20) = 882 ∧
    get_stft_fft_size ( specbleach_2d_initialize 44100 20).stft_processor = 882 ∧
    (882 : Nat) ≠ 882 / 2 + 1 := by
  refine ⟨?_, ?_, by decide⟩ <;>
    · simp [specbleach_2d_get_noise_profile_size, specbleach_2d_initialize,
        stft_processor_initialize, get_stft_fft_size, stft_frame_size_samples,
        calculate_fft_size, get_next_divisible_two, noise_profile_initialize,
        get_noise_profile_size, OVERLAP_FACTOR_GENERAL]
      norm_num
      try decide

/-- C2 amended: for every initialized handle, the manual family's
`get_noise_profile_size` returns `real_bins = N/2 + 1` (with `N` the FFT
size derived at initialization), while the 2-D family's returns the full
FFT size `N`. -/
theorem profile_size_amended (sample_rate : Nat) (frame_size : ℚ) :
    specbleach_get_noise_profile_size ( specbleach_initialize sample_rate frame_size)
      = get_stft_fft_size ( specbleach_initialize sample_rate frame_size).stft_processor / 2 + 1 ∧
    specbleach_2d_get_noise_profile_size ( specbleach_2d_initialize sample_rate frame_size)
      = get_stft_fft_size ( specbleach_2d_initialize sample_rate frame_size).stft_processor := by
  constructor <;>
    simp [specbleach_get_noise_profile_size, specbleach_initialize,
      specbleach_2d_get_noise_profile_size, specbleach_2d_initialize,
      get_noise_profile_size, noise_profile_initialize, get_stft_fft_size,
      get_stft_real_spectrum_size]

/-! ## Claim C3 (availability of the profile modes while learning) -/

/-- One learning frame advances the rolling-mean counter by one and keeps
the availability flags at `[6 ≤ n, 1 ≤ n, 1 ≤ n]` of the number `n` of
frames learned so far. -/
theorem learn_frame_step (e : NoiseEstimator) (s : List ℚ) (n : Nat)
    (hbuf : 1 ≤ e.median_buffer.real_spectrum_size)
    (hb : e.noise_profile.noise_profile_blocks_averaged = [n, 0, 0])
    (ha : e.noise_profile.noise_spectrum_available =
      [decide (6 ≤ n), decide (1 ≤ n), decide (1 ≤ n)]) :
    (learn_frame e s).median_buffer.real_spectrum_size
        = e.median_buffer.real_spectrum_size ∧
    (learn_frame e s).noise_profile.noise_profile_blocks_averaged = [n + 1, 0, 0] ∧
    (learn_frame e s).noise_profile.noise_spectrum_available =
      [decide (6 ≤ n + 1), decide (1 ≤ n + 1), decide (1 ≤ n + 1)] := by
  obtain ⟨fft, rss', mb, np⟩ := e
  obtain ⟨sz, profs, blocks, avail⟩ := np
  obtain ⟨mrss, mbs, mbuf⟩ := mb
  simp only at hbuf hb ha
  subst hb ha
  have hrss0 : mrss ≠ 0 := by omega
  simp only [learn_frame, noise_estimation_run, get_noise_profile,
    get_noise_profile_blocks_averaged, increment_blocks_averaged,
    set_noise_profile_available, modeIndex, spectral_trailing_buffer_push_back,
    get_rolling_median_spectrum, MIN_NUMBER_OF_WINDOWS_NOISE_AVERAGED]
  norm_num [hrss0, List.set]
  by_cases h6 : 6 ≤ n
  · have h5 : 5 < n + 1 := by omega
    have h61 : 6 ≤ n + 1 := by omega
    simp [h6, h5, h61, List.set]
  · by_cases h5 : n = 5
    · subst h5
      simp [List.set]
    · have hlt : ¬ 5 < n + 1 := by omega
      have h61 : ¬ 6 ≤ n + 1 := by omega
      simp [h6, hlt, h61, List.set]

/-- Folding learning frames: counters and availability flags after
`frames.length` additional frames on top of `n` already-learned ones. -/
theorem learn_frames_inv (frames : List (List ℚ)) :
    ∀ (e : NoiseEstimator) (n : Nat), 1 ≤ e.median_buffer.real_spectrum_size →
    e.noise_profile.noise_profile_blocks_averaged = [n, 0, 0] →
    e.noise_profile.noise_spectrum_available =
      [decide (6 ≤ n), decide (1 ≤ n), decide (1 ≤ n)] →
    (learn_frames e frames).noise_profile.noise_profile_blocks_averaged
        = [n + frames.length, 0, 0] ∧
    (learn_frames e frames).noise_profile.noise_spectrum_available =
      [decide (6 ≤ n + frames.length), decide (1 ≤ n + frames.length),
       decide (1 ≤ n + frames.length)] := by
  induction frames with
  | nil => intro e n hbuf hb ha; simpa [learn_frames] using ⟨hb, ha⟩
  | cons s rest ih =>
    intro e n hbuf hb ha
    obtain ⟨hbuf', hb', ha'⟩ := learn_frame_step e s n hbuf hb ha
    have := ih (learn_frame e s) (n + 1) (hbuf' ▸ hbuf) hb' ha'
    simpa [learn_frames, Nat.add_assoc, Nat.add_comm 1 rest.length] using this

/-- C3 counterexample: from a fresh profile, after 5 learning frames the
rolling-mean mode is still unavailable (the claim says it becomes available
exactly after 5 updates), and after a single learning frame the median mode
is already available (the claim says it requires 5). -/
theorem availability_counterexample :
    is_noise_estimation_available (learn_frames ( noise_estimation_initialize 2
      ( noise_profile_initialize 2)) (List.replicate 5 [1, 1])).noise_profile 1 = false ∧
    is_noise_estimation_available (learn_frames ( noise_estimation_initialize 2
      ( noise_profile_initialize 2)) [[1, 1]]).noise_profile 2 = true := by decide

/-- C3 amended: starting from a freshly initialized or reset noise profile
(all counters zero, all flags false), after any sequence of learning frames
the rolling-mean mode is available exactly when at least 6 frames were
learned (`blocks_averaged > MIN_NUMBER_OF_WINDOWS_NOISE_AVERAGED = 5`),
while the median and max modes are available exactly when at least 1 frame
was learned; the rolling-mean counter equals the number of learned
frames. -/
theorem availability_after_learning (fft : Nat) (np : NoiseProfile)
    (hb : np.noise_profile_blocks_averaged = [0, 0, 0])
    (ha : np.noise_spectrum_available = [false, false, false])
    (frames : List (List ℚ)) (e : NoiseEstimator)
    (he : e = learn_frames ( noise_estimation_initialize fft np) frames) :
    is_noise_estimation_available e.noise_profile 1 = decide (6 ≤ frames.length) ∧
    is_noise_estimation_available e.noise_profile 2 = decide (1 ≤ frames.length) ∧
    is_noise_estimation_available e.noise_profile 3 = decide (1 ≤ frames.length) ∧
    get_noise_profile_blocks_averaged e.noise_profile 1 = frames.length := by
  subst he
  have hbuf : 1 ≤ ( noise_estimation_initialize fft np).median_buffer.real_spectrum_size := by
    simp [ noise_estimation_initialize, spectral_trailing_buffer_initialize]
  have hb0 : ( noise_estimation_initialize fft np).noise_profile.noise_profile_blocks_averaged
      = [0, 0, 0] := by simpa [ noise_estimation_initialize] using hb
  have ha0 : ( noise_estimation_initialize fft np).noise_profile.noise_spectrum_available
      = [decide (6 ≤ 0), decide (1 ≤ 0), decide (1 ≤ 0)] := by
    simpa [ noise_estimation_initialize] using ha
  obtain ⟨hblocks, havail⟩ :=
    learn_frames_inv frames ( noise_estimation_initialize fft np) 0 hbuf hb0 ha0
  simp only [Nat.zero_add] at hblocks havail
  refine ⟨?_, ?_, ?_, ?_⟩ <;>
    simp [is_noise_estimation_available, get_noise_profile_blocks_averaged,
      modeIndex, hblocks, havail]

/-- C3 witness: the amended availability law applied to the fresh profile of
size 2 and six constant learning frames. -/
theorem availability_after_learning_witness :
    ( noise_profile_initialize 2).noise_profile_blocks_averaged = [0, 0, 0] ∧
    ( noise_profile_initialize 2).noise_spectrum_available = [false, false, false] ∧
    (is_noise_estimation_available (learn_frames ( noise_estimation_initialize 2
        ( noise_profile_initialize 2)) (List.replicate 6 [1, 1])).noise_profile 1
      = decide (6 ≤ (List.replicate 6 ([1, 1] : List ℚ)).length) ∧
     is_noise_estimation_available (learn_frames ( noise_estimation_initialize 2
        ( noise_profile_initialize 2)) (List.replicate 6 [1, 1])).noise_profile 2
      = decide (1 ≤ (List.replicate 6 ([1, 1] : List ℚ)).length) ∧
     is_noise_estimation_available (learn_frames ( noise_estimation_initialize 2
        ( noise_profile_initialize 2)) (List.replicate 6 [1, 1])).noise_profile 3
      = decide (1 ≤ (List.replicate 6 ([1, 1] : List ℚ)).length) ∧
     get_noise_profile_blocks_averaged (learn_frames ( noise_estimation_initialize 2
        ( noise_profile_initialize 2)) (List.replicate 6 [1, 1])).noise_profile 1
      = (List.replicate 6 ([1, 1] : List ℚ)).length) :=
  ⟨by decide, by decide,
    availability_after_learning 2 ( noise_profile_initialize 2) (by decide) (by decide)
      (List.replicate 6 [1, 1]) _ rfl⟩

/-- C4 counterexample: learning the frames `[3, 4]` then `[5, 8]` in
rolling-mean mode from a fresh profile of `real_bins = 2` leaves the
profile at `[0, 8]` — the second frame is copied outright because the
pre-update count is 1, and bin 0 is never written — whereas the claimed
update `profile[k] ← profile[k] + (frame[k] − profile[k]) / n` with `n` the
post-update count would give `[3, 4]` after the first frame and `[4, 6]`
after the second. -/
theorem rolling_mean_counterexample :
    (get_noise_profile rolling_mean_frame2.noise_profile 1).getD [] = [0, 8] ∧
    (3 : ℚ) + (5 - 3) / 2 = 4 ∧
    (4 : ℚ) + (8 - 4) / 2 = 6 ∧
    ([0, 8] : List ℚ) ≠ [4, 6] := by
  refine ⟨by decide, by norm_num, by norm_num, by decide⟩

/-- C4 amended: one rolling-mean learning step updates, for every bin
`1 ≤ k < real_bins`, the profile by `profile[k] ← frame[k]` when the
pre-update block count `n₀` is at most 1 and by
`profile[k] ← profile[k] + (frame[k] − profile[k]) / n₀` otherwise (`n₀` is
the count *before* the update; the counter is incremented afterwards), and
leaves bin 0 untouched. -/
theorem rolling_mean_amended (e : NoiseEstimator) (s : List ℚ) (k : Nat)
    (hprof : e.noise_profile.noise_profiles.length = 3)
    (hblocks : e.noise_profile.noise_profile_blocks_averaged.length = 3)
    (hk1 : 1 ≤ k) (hk2 : k < e.real_spectrum_size)
    (hklen : k < ((get_noise_profile e.noise_profile 1).getD []).length) :
    ((get_noise_profile ((noise_estimation_run e 1 (some s)).2).noise_profile 1).getD
        []).getD k 0 =
      (if get_noise_profile_blocks_averaged e.noise_profile 1 ≤ 1 then s.getD k 0
       else ((get_noise_profile e.noise_profile 1).getD []).getD k 0 +
         (s.getD k 0 - ((get_noise_profile e.noise_profile 1).getD []).getD k 0) /
           (get_noise_profile_blocks_averaged e.noise_profile 1 : ℚ)) ∧
    ((get_noise_profile ((noise_estimation_run e 1 (some s)).2).noise_profile 1).getD
        []).getD 0 0 =
      ((get_noise_profile e.noise_profile 1).getD []).getD 0 0 ∧
    get_noise_profile_blocks_averaged
        ((noise_estimation_run e 1 (some s)).2).noise_profile 1 =
      get_noise_profile_blocks_averaged e.noise_profile 1 + 1 := by
  obtain ⟨fft, rss, mb, np⟩ := e
  obtain ⟨sz, profs, blocks, avail⟩ := np
  simp only at hprof hblocks hk2 hklen
  obtain ⟨p1, p2, p3, rfl⟩ := List.length_eq_three.mp hprof
  obtain ⟨b1, b2, b3, rfl⟩ := List.length_eq_three.mp hblocks
  simp only [get_noise_profile, get_noise_profile_blocks_averaged, modeIndex,
    noise_estimation_run, increment_blocks_averaged,
    get_rolling_mean_spectrum] at hklen ⊢
  norm_num [List.set]
  norm_num at hklen
  have hk0 : k ≠ 0 := by omega
  refine ⟨?_, ?_⟩
  · simp only [List.getD_eq_getElem?_getD, List.getElem?_ofFn, List.ofFnNthVal]
    rw [dif_pos hklen]
    simp [hk1, hk2, List.getElem?_eq_getElem hklen]
  · rcases Nat.eq_zero_or_pos p1.length with hlen | hlen
    · rcases List.length_eq_zero.mp hlen
      simp [List.getD_eq_getElem?_getD, List.getElem?_ofFn, List.ofFnNthVal]
    · simp only [List.getD_eq_getElem?_getD, List.getElem?_ofFn, List.ofFnNthVal]
      rw [dif_pos hlen]
      simp [List.getElem?_eq_getElem hlen]

/-- C4 witness: the amended rolling-mean law applied at bin 1 of
`rolling_mean_witness_state` with frame `[0, 5]`. -/
theorem rolling_mean_amended_witness :
    (rolling_mean_witness_state.noise_profile.noise_profiles.length = 3 ∧
     rolling_mean_witness_state.noise_profile.noise_profile_blocks_averaged.length = 3 ∧
     1 < rolling_mean_witness_state.real_spectrum_size ∧
     1 < ((get_noise_profile rolling_mean_witness_state.noise_profile 1).getD []).length) ∧
    (((get_noise_profile ((noise_estimation_run rolling_mean_witness_state 1
          (some [0, 5])).2).noise_profile 1).getD []).getD 1 0 =
        (if get_noise_profile_blocks_averaged rolling_mean_witness_state.noise_profile 1 ≤ 1
         then ([0, 5] : List ℚ).getD 1 0
         else ((get_noise_profile rolling_mean_witness_state.noise_profile 1).getD []).getD 1 0 +
           (([0, 5] : List ℚ).getD 1 0 -
             ((get_noise_profile rolling_mean_witness_state.noise_profile 1).getD []).getD 1 0) /
             (get_noise_profile_blocks_averaged rolling_mean_witness_state.noise_profile 1 : ℚ)) ∧
      ((get_noise_profile ((noise_estimation_run rolling_mean_witness_state 1
          (some [0, 5])).2).noise_profile 1).getD []).getD 0 0 =
        ((get_noise_profile rolling_mean_witness_state.noise_profile 1).getD []).getD 0 0 ∧
      get_noise_profile_blocks_averaged
          ((noise_estimation_run rolling_mean_witness_state 1 (some [0, 5])).2).noise_profile 1 =
        get_noise_profile_blocks_averaged rolling_mean_witness_state.noise_profile 1 + 1) :=
  ⟨⟨by decide, by decide, by decide, by decide⟩,
    rolling_mean_amended rolling_mean_witness_state [0, 5] 1 (by decide) (by decide)
      (by decide) (by decide) (by decide)⟩

/-! ## Claims C9 and C10 (profile load round-trip) -/

/-- Full characterization of a successful `set_noise_profile`: the mode's
slot holds exactly the supplied array, its counter the supplied count, its
flag true, and the other modes' slots, counters and flags are unchanged. -/
theorem set_noise_profile_spec (np : NoiseProfile) (A : List ℚ)
    (size blocks : Nat) (mode : Int)
    (hm1 : 1 ≤ mode) (hm3 : mode ≤ 3)
    (hsize : size = np.noise_profile_size) (hA : A.length = size)
    (hWFp : np.noise_profiles.length = 3)
    (hWFb : np.noise_profile_blocks_averaged.length = 3)
    (hWFa : np.noise_spectrum_available.length = 3) :
    (set_noise_profile np mode (some A) size blocks).1 = true ∧
    get_noise_profile (set_noise_profile np mode (some A) size blocks).2 mode = some A ∧
    get_noise_profile_blocks_averaged
        (set_noise_profile np mode (some A) size blocks).2 mode = blocks ∧
    is_noise_estimation_available
        (set_noise_profile np mode (some A) size blocks).2 mode = true ∧
    (∀ m : Int, 1 ≤ m → m ≤ 3 → m ≠ mode →
      get_noise_profile (set_noise_profile np mode (some A) size blocks).2 m
          = get_noise_profile np m ∧
      get_noise_profile_blocks_averaged
          (set_noise_profile np mode (some A) size blocks).2 m
          = get_noise_profile_blocks_averaged np m ∧
      is_noise_estimation_available
          (set_noise_profile np mode (some A) size blocks).2 m
          = is_noise_estimation_available np m) := by
  obtain ⟨sz, profs, blocks', avail⟩ := np
  simp only at hsize hWFp hWFb hWFa
  obtain ⟨p1, p2, p3, rfl⟩ := List.length_eq_three.mp hWFp
  obtain ⟨b1, b2, b3, rfl⟩ := List.length_eq_three.mp hWFb
  obtain ⟨a1, a2, a3, rfl⟩ := List.length_eq_three.mp hWFa
  subst hsize
  have htake : A.take A.length = A := List.take_length A
  interval_cases mode <;>
    refine ⟨by simp [set_noise_profile], ?_, ?_, ?_, ?_⟩ <;>
      first
      | (intro m h1 h3 hne
         interval_cases m <;>
           simp_all [set_noise_profile, get_noise_profile,
             get_noise_profile_blocks_averaged, is_noise_estimation_available,
             modeIndex, List.set])
      | (simp [set_noise_profile, get_noise_profile,
          get_noise_profile_blocks_averaged, is_noise_estimation_available,
          modeIndex, List.set, hA, htake])

/-- C9: after a successful `load_noise_profile_for_mode(m, A, size, blocks)`
on a 2-D handle, `get_noise_profile_for_mode(m)` returns exactly `A`, the
mode's `blocks_averaged` equals `blocks`, the mode is available, and the
profiles, counters and availability flags of the other two modes are
unchanged. -/
theorem load_then_get_profile (d : Sb2DDenoiser) (A : List ℚ)
    (size blocks : Nat) (mode : Int)
    (hm1 : 1 ≤ mode) (hm3 : mode ≤ 3)
    (hsize : size = get_noise_profile_size d.noise_profile)
    (hA : A.length = size)
    (hWFp : d.noise_profile.noise_profiles.length = 3)
    (hWFb : d.noise_profile.noise_profile_blocks_averaged.length = 3)
    (hWFa : d.noise_profile.noise_spectrum_available.length = 3) :
    (specbleach_2d_load_noise_profile_for_mode d (some A) size blocks mode).1 = true ∧
    specbleach_2d_get_noise_profile_for_mode
        (specbleach_2d_load_noise_profile_for_mode d (some A) size blocks mode).2 mode
      = some A ∧
    specbleach_2d_get_noise_profile_blocks_averaged_for_mode
        (specbleach_2d_load_noise_profile_for_mode d (some A) size blocks mode).2 mode
      = blocks ∧
    specbleach_2d_noise_profile_available_for_mode
        (specbleach_2d_load_noise_profile_for_mode d (some A) size blocks mode).2 mode
      = true ∧
    (∀ m : Int, 1 ≤ m → m ≤ 3 → m ≠ mode →
      specbleach_2d_get_noise_profile_for_mode
          (specbleach_2d_load_noise_profile_for_mode d (some A) size blocks mode).2 m
        = specbleach_2d_get_noise_profile_for_mode d m ∧
      specbleach_2d_get_noise_profile_blocks_averaged_for_mode
          (specbleach_2d_load_noise_profile_for_mode d (some A) size blocks mode).2 m
        = specbleach_2d_get_noise_profile_blocks_averaged_for_mode d m ∧
      specbleach_2d_noise_profile_available_for_mode
          (specbleach_2d_load_noise_profile_for_mode d (some A) size blocks mode).2 m
        = specbleach_2d_noise_profile_available_for_mode d m) := by
  have h1 : ¬ mode < 1 := by omega
  have h3 : ¬ mode > 3 := by omega
  have hred : specbleach_2d_load_noise_profile_for_mode d (some A) size blocks mode
      = (true, { d with noise_profile :=
          (set_noise_profile d.noise_profile mode (some A) size blocks).2 }) := by
    simp [specbleach_2d_load_noise_profile_for_mode, h1, h3, hsize]
  obtain ⟨hok, hget, hcnt, hav, hother⟩ :=
    set_noise_profile_spec d.noise_profile A size blocks mode hm1 hm3
      (by simpa [get_noise_profile_size] using hsize) hA hWFp hWFb hWFa
  refine ⟨by simp [hred], ?_, ?_, ?_, ?_⟩
  · simpa [hred, specbleach_2d_get_noise_profile_for_mode] using hget
  · simpa [hred, specbleach_2d_get_noise_profile_blocks_averaged_for_mode] using hcnt
  · simpa [hred, specbleach_2d_noise_profile_available_for_mode] using hav
  · intro m hm1' hm3' hne
    obtain ⟨g1, g2, g3⟩ := hother m hm1' hm3' hne
    exact ⟨by simpa [hred, specbleach_2d_get_noise_profile_for_mode] using g1,
      by simpa [hred, specbleach_2d_get_noise_profile_blocks_averaged_for_mode] using g2,
      by simpa [hred, specbleach_2d_noise_profile_available_for_mode] using g3⟩

/-- C9 witness: loading `[5, 7]` with 10 blocks into mode 1 of
`profile_fixture_2d` and reading it back, with mode 2 untouched. -/
theorem load_then_get_profile_witness :
    (2 = get_noise_profile_size profile_fixture_2d.noise_profile ∧
     ([5, 7] : List ℚ).length = 2) ∧
    (specbleach_2d_load_noise_profile_for_mode profile_fixture_2d
        (some [5, 7]) 2 10 1).1 = true ∧
    specbleach_2d_get_noise_profile_for_mode
        (specbleach_2d_load_noise_profile_for_mode profile_fixture_2d
          (some [5, 7]) 2 10 1).2 1 = some [5, 7] ∧
    specbleach_2d_get_noise_profile_blocks_averaged_for_mode
        (specbleach_2d_load_noise_profile_for_mode profile_fixture_2d
          (some [5, 7]) 2 10 1).2 1 = 10 ∧
    specbleach_2d_noise_profile_available_for_mode
        (specbleach_2d_load_noise_profile_for_mode profile_fixture_2d
          (some [5, 7]) 2 10 1).2 1 = true ∧
    specbleach_2d_noise_profile_available_for_mode
        (specbleach_2d_load_noise_profile_for_mode profile_fixture_2d
          (some [5, 7]) 2 10 1).2 2
      = specbleach_2d_noise_profile_available_for_mode profile_fixture_2d 2 :=
  ⟨⟨by decide, by decide⟩,
   (load_then_get_profile profile_fixture_2d [5, 7] 2 10 1 (by decide) (by decide)
      (by decide) (by decide) (by decide) (by decide) (by decide)).1,
   (load_then_get_profile profile_fixture_2d [5, 7] 2 10 1 (by decide) (by decide)
      (by decide) (by decide) (by decide) (by decide) (by decide)).2.1,
   (load_then_get_profile profile_fixture_2d [5, 7] 2 10 1 (by decide) (by decide)
      (by decide) (by decide) (by decide) (by decide) (by decide)).2.2.1,
   (load_then_get_profile profile_fixture_2d [5, 7] 2 10 1 (by decide) (by decide)
      (by decide) (by decide) (by decide) (by decide) (by decide)).2.2.2.1,
   ((load_then_get_profile profile_fixture_2d [5, 7] 2 10 1 (by decide) (by decide)
      (by decide) (by decide) (by decide) (by decide) (by decide)).2.2.2.2 2
      (by decide) (by decide) (by decide)).2.2⟩

/-- C10: a successful load marks the mode available even with a supplied
`blocks_averaged` of 0 — the availability flag is set unconditionally, and
the stored count 0 does not satisfy the learning path's
`count > MIN_NUMBER_OF_WINDOWS_NOISE_AVERAGED` threshold, which is never
consulted by the load path. -/
theorem load_marks_available_unconditionally (d : Sb2DDenoiser) (A : List ℚ)
    (size : Nat) (mode : Int)
    (hm1 : 1 ≤ mode) (hm3 : mode ≤ 3)
    (hsize : size = get_noise_profile_size d.noise_profile)
    (hA : A.length = size)
    (hWFp : d.noise_profile.noise_profiles.length = 3)
    (hWFb : d.noise_profile.noise_profile_blocks_averaged.length = 3)
    (hWFa : d.noise_profile.noise_spectrum_available.length = 3) :
    (specbleach_2d_load_noise_profile_for_mode d (some A) size 0 mode).1 = true ∧
    specbleach_2d_noise_profile_available_for_mode
        (specbleach_2d_load_noise_profile_for_mode d (some A) size 0 mode).2 mode
      = true ∧
    specbleach_2d_get_noise_profile_blocks_averaged_for_mode
        (specbleach_2d_load_noise_profile_for_mode d (some A) size 0 mode).2 mode
      = 0 ∧
    ¬ 0 > MIN_NUMBER_OF_WINDOWS_NOISE_AVERAGED := by
  have h1 : ¬ mode < 1 := by omega
  have h3 : ¬ mode > 3 := by omega
  have hred : specbleach_2d_load_noise_profile_for_mode d (some A) size 0 mode
      = (true, { d with noise_profile :=
          (set_noise_profile d.noise_profile mode (some A) size 0).2 }) := by
    simp [specbleach_2d_load_noise_profile_for_mode, h1, h3, hsize]
  obtain ⟨hok, hget, hcnt, hav, hother⟩ :=
    set_noise_profile_spec d.noise_profile A size 0 mode hm1 hm3
      (by simpa [get_noise_profile_size] using hsize) hA hWFp hWFb hWFa
  exact ⟨by simp [hred],
    by simpa [hred, specbleach_2d_noise_profile_available_for_mode] using hav,
    by simpa [hred, specbleach_2d_get_noise_profile_blocks_averaged_for_mode] using hcnt,
    by decide⟩

/-- C10 witness: loading with `blocks_averaged = 0` into mode 3 of
`profile_fixture_2d` still makes mode 3 available. -/
theorem load_marks_available_unconditionally_witness :
    (2 = get_noise_profile_size profile_fixture_2d.noise_profile ∧
     ([5, 7] : List ℚ).length = 2) ∧
    (specbleach_2d_load_noise_profile_for_mode profile_fixture_2d
        (some [5, 7]) 2 0 3).1 = true ∧
    specbleach_2d_noise_profile_available_for_mode
        (specbleach_2d_load_noise_profile_for_mode profile_fixture_2d
          (some [5, 7]) 2 0 3).2 3 = true ∧
    specbleach_2d_get_noise_profile_blocks_averaged_for_mode
        (specbleach_2d_load_noise_profile_for_mode profile_fixture_2d
          (some [5, 7]) 2 0 3).2 3 = 0 :=
  ⟨⟨by decide, by decide⟩,
   (load_marks_available_unconditionally profile_fixture_2d [5, 7] 2 3 (by decide)
      (by decide) (by decide) (by decide) (by decide) (by decide) (by decide)).1,
   (load_marks_available_unconditionally profile_fixture_2d [5, 7] 2 3 (by decide)
      (by decide) (by decide) (by decide) (by decide) (by decide) (by decide)).2.1,
   (load_marks_available_unconditionally profile_fixture_2d [5, 7] 2 3 (by decide)
      (by decide) (by decide) (by decide) (by decide) (by decide) (by decide)).2.2.1⟩

/-- C8: `process` returns false — with the handle state and the output
buffer unmodified — whenever the handle, the input buffer or the output
buffer is null or the sample count is zero; for every non-null handle with
non-null buffers and a positive sample count it returns true. -/
theorem process_guard_semantics :
    (∀ (σ : Type) (step : σ → ℚ → σ × ℚ) (inst : Option σ) (n : Nat)
        (input output : Option (List ℚ)),
      inst = none ∨ n = 0 ∨ input = none ∨ output = none →
        specbleach_process step inst n input output = (false, inst, output.getD [])) ∧
    (∀ (σ : Type) (step : σ → ℚ → σ × ℚ) (st : σ) (n : Nat)
        (inp outbuf : List ℚ), 0 < n →
      (specbleach_process step (some st) n (some inp) (some outbuf)).1 = true) := by
  constructor
  · intro σ step inst n input output h
    match inst, input, output with
    | none, _, _ => simp [specbleach_process]
    | some st, none, _ => simp [specbleach_process]
    | some st, some inp, none => simp [specbleach_process]
    | some st, some inp, some outbuf =>
      have hn : n = 0 := by rcases h with h | h | h | h <;> simp_all
      subst hn
      simp [specbleach_process]
  · intro σ step st n inp outbuf hn
    have hn0 : n ≠ 0 := by omega
    simp [specbleach_process, hn0]

/-- C8 witness: the guard law at `σ = Unit` with a trivial per-sample step:
a null handle fails with nothing modified, and a valid call with one sample
returns true. -/
theorem process_guard_semantics_witness :
    specbleach_process (fun (s : Unit) (x : ℚ) => (s, x)) none 1
        (some [1]) (some [2]) = (false, none, [2]) ∧
    (specbleach_process (fun (s : Unit) (x : ℚ) => (s, x)) (some ()) 1
        (some [1]) (some [2])).1 = true :=
  ⟨process_guard_semantics.1 Unit (fun s x => (s, x)) none 1 (some [1]) (some [2])
      (Or.inl rfl),
   process_guard_semantics.2 Unit (fun s x => (s, x)) () 1 [1] [2] (by decide)⟩

/-- Clamping `1 / (1 + d)` to `[0, 1]` is the identity when `d ≥ 0`. -/
theorem clamp01_inv_one_add {d : ℚ} (hd : 0 ≤ d) :
    max 0 (min 1 (1 / (1 + d))) = 1 / (1 + d) := by
  have h1 : (0 : ℚ) < 1 + d := by linarith
  have hle : 1 / (1 + d) ≤ 1 := by
    rw [div_le_one h1]; linarith
  have hge : (0 : ℚ) ≤ 1 / (1 + d) := by positivity
  rw [min_eq_right hle, max_eq_right hge]

/-- C7: on every non-first, non-silent frame and for every bin `k`, with
`Y` the observed power, `σ` the previous noise estimate (≥ the 1e-12
floor) and `P̄` the stored IIR-smoothed SPP: the speech-presence
probability is `P₀ = 1/(1 + (1+ξ)·exp(−(Y/σ)·ξ/(1+ξ)))` with `ξ = 31.62`,
it is clipped at 0.99 exactly when `P̄ > 0.99`, the new noise estimate is
`σ ← 0.8·σ + 0.2·((1−P)·Y + P·σ)`, the smoothed SPP becomes
`0.9·P̄ + 0.1·P`, and the new estimate is stored as the next frame's
previous PSD.  (`e` abstracts the C `expf`, assumed nonnegative like the
real exponential.) -/
theorem spp_mmse_update_formula (e : ℚ → ℚ) (st : SppMmseNoiseEstimator)
    (s : List ℚ) (k : Nat)
    (hfirst : st.is_first_frame = false)
    (hsil : ¬ ((((List.range st.noise_spectrum_size).map fun j => s.getD j 0).sum) /
        (st.noise_spectrum_size : ℚ) < ESTIMATOR_SILENCE_THRESHOLD))
    (hk : k < st.noise_spectrum_size)
    (hpsd : 1 / 10 ^ 12 ≤ st.spp_previous_noise_psd.getD k 0)
    (he : ∀ x, 0 ≤ e x) :
    (spp_mmse_noise_estimator_run e st (some s)).2.2.getD k 0 =
      SPP_ALPHA_POW * st.spp_previous_noise_psd.getD k 0 +
        (1 - SPP_ALPHA_POW) *
          ((1 - sppClaimClipped e (s.getD k 0) (st.spp_previous_noise_psd.getD k 0)
              (st.spp_smoothed_spp.getD k 0)) * s.getD k 0 +
            sppClaimClipped e (s.getD k 0) (st.spp_previous_noise_psd.getD k 0)
              (st.spp_smoothed_spp.getD k 0) *
              st.spp_previous_noise_psd.getD k 0) ∧
    (spp_mmse_noise_estimator_run e st (some s)).2.1.spp_smoothed_spp.getD k 0 =
      SPP_SMOOTH_SPP * st.spp_smoothed_spp.getD k 0 +
        SPP_CURRENT_SPP * sppClaimClipped e (s.getD k 0)
          (st.spp_previous_noise_psd.getD k 0) (st.spp_smoothed_spp.getD k 0) ∧
    (spp_mmse_noise_estimator_run e st (some s)).2.1.spp_previous_noise_psd.getD k 0 =
      (spp_mmse_noise_estimator_run e st (some s)).2.2.getD k 0 := by
  have hnotlt : ¬ st.spp_previous_noise_psd.getD k 0 < 1 / 10 ^ 12 :=
    not_lt.mpr hpsd
  have hexp : compute_spp_probability e (s.getD k 0)
      (st.spp_previous_noise_psd.getD k 0) =
      sppClaimProbability e (s.getD k 0) (st.spp_previous_noise_psd.getD k 0) := by
    rw [compute_spp_probability, if_neg hnotlt, sppClaimProbability]
    exact clamp01_inv_one_add
      (mul_nonneg (by norm_num [SPP_FIXED_XI_H1]) (he _))
  simp only [spp_mmse_noise_estimator_run, hfirst, Bool.false_eq_true, if_false,
    if_neg hsil]
  simp only [List.getD_eq_getElem?_getD, List.getElem?_map, List.getElem?_range,
    hk, if_pos, Option.map_some, Option.map_some', Option.getD_some]
  simp only [List.getD_eq_getElem?_getD] at hexp
  simp only [spp_mmse_bin, hexp, compute_mmse_noise_estimate, sppClaimClipped]
  refine ⟨by ring_nf, by ring_nf, trivial⟩

/-- C7 witness: the SPP/MMSE update law at bin 0 of `spp_witness_state`
with observation `[2]` and the constant-one stand-in for `expf`. -/
theorem spp_mmse_update_formula_witness :
    ¬ ((((List.range spp_witness_state.noise_spectrum_size).map
          fun j => ([2] : List ℚ).getD j 0).sum) /
        (spp_witness_state.noise_spectrum_size : ℚ) < ESTIMATOR_SILENCE_THRESHOLD) ∧
    1 / 10 ^ 12 ≤ spp_witness_state.spp_previous_noise_psd.getD 0 0 ∧
    ((spp_mmse_noise_estimator_run (fun _ => 1) spp_witness_state
        (some [2])).2.2.getD 0 0 =
      SPP_ALPHA_POW * spp_witness_state.spp_previous_noise_psd.getD 0 0 +
        (1 - SPP_ALPHA_POW) *
          ((1 - sppClaimClipped (fun _ => 1) (([2] : List ℚ).getD 0 0)
              (spp_witness_state.spp_previous_noise_psd.getD 0 0)
              (spp_witness_state.spp_smoothed_spp.getD 0 0)) *
              ([2] : List ℚ).getD 0 0 +
            sppClaimClipped (fun _ => 1) (([2] : List ℚ).getD 0 0)
              (spp_witness_state.spp_previous_noise_psd.getD 0 0)
              (spp_witness_state.spp_smoothed_spp.getD 0 0) *
              spp_witness_state.spp_previous_noise_psd.getD 0 0) ∧
     (spp_mmse_noise_estimator_run (fun _ => 1) spp_witness_state
        (some [2])).2.1.spp_smoothed_spp.getD 0 0 =
      SPP_SMOOTH_SPP * spp_witness_state.spp_smoothed_spp.getD 0 0 +
        SPP_CURRENT_SPP * sppClaimClipped (fun _ => 1) (([2] : List ℚ).getD 0 0)
          (spp_witness_state.spp_previous_noise_psd.getD 0 0)
          (spp_witness_state.spp_smoothed_spp.getD 0 0) ∧
     (spp_mmse_noise_estimator_run (fun _ => 1) spp_witness_state
        (some [2])).2.1.spp_previous_noise_psd.getD 0 0 =
      (spp_mmse_noise_estimator_run (fun _ => 1) spp_witness_state
        (some [2])).2.2.getD 0 0) := by
  have hsil : ¬ ((((List.range spp_witness_state.noise_spectrum_size).map
        fun j => ([2] : List ℚ).getD j 0).sum) /
      (spp_witness_state.noise_spectrum_size : ℚ) < ESTIMATOR_SILENCE_THRESHOLD) := by
    simp only [spp_witness_state, ESTIMATOR_SILENCE_THRESHOLD,
      show List.range 1 = [0] from rfl]
    simp
    norm_num
  have hpsd : 1 / 10 ^ 12 ≤ spp_witness_state.spp_previous_noise_psd.getD 0 0 := by
    simp [spp_witness_state]
    norm_num
  exact ⟨hsil, hpsd,
    spp_mmse_update_formula (fun _ => 1) spp_witness_state [2] 0 rfl hsil
      (by decide) hpsd (fun x => by norm_num)⟩

/-- Reading bin `k` of a spectrum built by mapping over `List.range n`. -/
theorem getD_map_range {α : Type} [Inhabited α] (f : Nat → α) {n k : Nat}
    (hk : k < n) (d : α) : ((List.range n).map f).getD k d = f k := by
  simp [List.getD_eq_getElem?_getD, List.getElem?_map, List.getElem?_range, hk]

/-- The history minimum never exceeds its seed. -/
theorem martin_history_min_le (hist : List ℚ) (k : Nat) (init : ℚ) :
    martin_history_min hist k init ≤ init := by
  unfold martin_history_min
  generalize List.range MARTIN_SUBWIN_COUNT = ds
  induction ds generalizing init with
  | nil => simp
  | cons d ds ih =>
    simp only [List.foldl_cons]
    by_cases hx : hist.getD (k * MARTIN_SUBWIN_COUNT + d) 0 < init
    · simp only [if_pos hx]
      exact (ih _).trans hx.le
    · simp only [if_neg hx]
      exact ih init

/-- C6 amended: on every non-first frame, for every bin `k`, the output
noise estimate never exceeds `MARTIN_BIAS_CORR` (= 1.5) times the smoothed
PSD for that bin — the *bias-uncorrected* minimum lower-bounds the smoothed
PSD, but the returned value multiplies it by the bias factor.  The
sub-window minimum stays at or below the smoothed PSD (the invariant is
preserved). -/
theorem martin_output_bound (st : MartinNoiseEstimator) (s : List ℚ) (k : Nat)
    (hfirst : st.is_first_frame = false)
    (hk : k < st.noise_spectrum_size)
    (hinv : ∀ j, j < st.noise_spectrum_size →
      st.current_subwin_min.getD j 0 ≤ st.smoothed_psd.getD j 0) :
    (martin_noise_estimator_run st (some s)).2.2.getD k 0 ≤
      MARTIN_BIAS_CORR *
        (martin_noise_estimator_run st (some s)).2.1.smoothed_psd.getD k 0 ∧
    (∀ j, j < st.noise_spectrum_size →
      (martin_noise_estimator_run st (some s)).2.1.current_subwin_min.getD j 0 ≤
        (martin_noise_estimator_run st (some s)).2.1.smoothed_psd.getD j 0) := by
  have hb : (0 : ℚ) ≤ MARTIN_BIAS_CORR := by norm_num [MARTIN_BIAS_CORR]
  simp only [martin_noise_estimator_run, hfirst, Bool.false_eq_true, if_false]
  split_ifs with hsil hrot
  · -- silence: state only advances the frame counter
    refine ⟨?_, fun j hj => hinv j hj⟩
    rw [getD_map_range _ hk, mul_comm MARTIN_BIAS_CORR]
    exact le_trans
      (mul_le_mul_of_nonneg_right (martin_history_min_le _ _ _) hb)
      (mul_le_mul_of_nonneg_right (hinv k hk) hb)
  · -- sub-window rotation: the minimum is reset to the new smoothed PSD
    refine ⟨?_, fun j hj => le_refl _⟩
    rw [getD_map_range _ hk, getD_map_range _ hk, mul_comm MARTIN_BIAS_CORR]
    exact mul_le_mul_of_nonneg_right (martin_history_min_le _ _ _) hb
  · -- ordinary frame: the minimum is min(new PSD, old minimum)
    have hcm : ∀ j, (if martin_psd_update (st.smoothed_psd.getD j 0) (s.getD j 0) <
          st.current_subwin_min.getD j 0 then
        martin_psd_update (st.smoothed_psd.getD j 0) (s.getD j 0)
      else st.current_subwin_min.getD j 0) ≤
        martin_psd_update (st.smoothed_psd.getD j 0) (s.getD j 0) := by
      intro j
      split_ifs with h
      · exact le_refl _
      · exact not_lt.mp h
    refine ⟨?_, fun j hj => ?_⟩
    · rw [getD_map_range _ hk, getD_map_range _ hk, getD_map_range _ hk,
        mul_comm MARTIN_BIAS_CORR]
      exact le_trans
        (mul_le_mul_of_nonneg_right (martin_history_min_le _ _ _) hb)
        (mul_le_mul_of_nonneg_right (hcm k) hb)
    · simp only
      rw [getD_map_range _ hj, getD_map_range _ hj]
      exact hcm j

/-- The first frame seeds every buffer with `spectrum / MARTIN_BIAS_CORR`. -/
theorem martin_frame1_eq :
    martin_frame1 =
      { noise_spectrum_size := 1
        smoothed_psd := [2/3]
        current_subwin_min := [2/3]
        subwin_history := List.replicate 8 (2/3)
        frame_count := 1
        subwin_index := 0
        is_first_frame := false } := by
  unfold martin_frame1 martin_noise_estimator_run martin_noise_estimator_initialize
  norm_num [ESTIMATOR_SILENCE_THRESHOLD, MARTIN_BIAS_CORR, MARTIN_SUBWIN_COUNT,
    show List.range 1 = [0] from rfl, show List.range 8 = [0, 1, 2, 3, 4, 5, 6, 7] from rfl,
    List.replicate]

/-- C6 counterexample: feeding the constant spectrum `[1]` twice from a
fresh single-bin estimator, the second frame outputs 1 while the smoothed
PSD is 7/10 — the bias-corrected minimum exceeds the smoothed PSD, so the
claimed invariant `output ≤ smoothed PSD` fails. -/
theorem martin_bound_counterexample :
    (martin_noise_estimator_run martin_frame1 (some [1])).2.2.getD 0 0 = 1 ∧
    (martin_noise_estimator_run martin_frame1 (some [1])).2.1.smoothed_psd.getD 0 0
      = 7 / 10 ∧
    ¬ ((1 : ℚ) ≤ 7 / 10) := by
  rw [martin_frame1_eq]
  refine ⟨?_, ?_, by norm_num⟩ <;>
    norm_num [martin_noise_estimator_run, martin_history_min, martin_psd_update,
      ESTIMATOR_SILENCE_THRESHOLD, MARTIN_BIAS_CORR, MARTIN_SMOOTH_ALPHA,
      MARTIN_SUBWIN_LEN, MARTIN_SUBWIN_COUNT,
      show List.range 1 = [0] from rfl,
      show List.range 8 = [0, 1, 2, 3, 4, 5, 6, 7] from rfl,
      List.replicate]

/-- C6 witness: the amended bound applied to `martin_frame1` and a second
constant frame `[1]`, at bin 0. -/
theorem martin_output_bound_witness :
    martin_frame1.is_first_frame = false ∧
    0 < martin_frame1.noise_spectrum_size ∧
    (martin_noise_estimator_run martin_frame1 (some [1])).2.2.getD 0 0 ≤
      MARTIN_BIAS_CORR *
        (martin_noise_estimator_run martin_frame1 (some [1])).2.1.smoothed_psd.getD 0 0 ∧
    (martin_noise_estimator_run martin_frame1 (some [1])).2.1.current_subwin_min.getD 0 0 ≤
      (martin_noise_estimator_run martin_frame1 (some [1])).2.1.smoothed_psd.getD 0 0 := by
  have hf : martin_frame1.is_first_frame = false := by rw [martin_frame1_eq]
  have hk : (0 : Nat) < martin_frame1.noise_spectrum_size := by
    rw [martin_frame1_eq]
    norm_num
  have hinv : ∀ j, j < martin_frame1.noise_spectrum_size →
      martin_frame1.current_subwin_min.getD j 0 ≤
        martin_frame1.smoothed_psd.getD j 0 := by
    intro j hj
    rw [martin_frame1_eq]
  exact ⟨hf, hk,
    (martin_output_bound martin_frame1 [1] 0 hf hk hinv).1,
    (martin_output_bound martin_frame1 [1] 0 hf hk hinv).2 0 hk⟩

example :
    get_adaptive_window_size ( postfilter_initialize 8) [4, 4, 4, 4, 0, 0, 0, 0]
      (11 / 10) [1, 1, 1, 1, 0, 0, 0, 0] = 1 := by
  norm_num [get_adaptive_window_size, postfilter_initialize, roundq,
    POSTFILTER_SCALE, show List.range 5 = [0, 1, 2, 3, 4] from rfl]

set_option maxHeartbeats 2000000 in
/-- C5 counterexample: with reference `[4,4,4,4,0,…]`, gains
`[1,1,1,1,0,…]`, `snr_threshold = 1.1` and `gain_floor = 0` on an 8-point
post-filter (5 real bins), `ζ = 1 < snr_threshold`, so the claim prescribes
`n = 2·round(10·(1 − 1/1.1)) + 1 = 3` and a smoothed bin 3 of
`(1 + 1 + 0)/3 = 2/3`; the code's extra `ζ ≥ 1` guard selects `n = 1` and
leaves bin 3 at 1. -/
theorem postfilter_counterexample :
    (postfilter_apply ( postfilter_initialize 8) (some [4, 4, 4, 4, 0, 0, 0, 0])
        (some [1, 1, 1, 1, 0, 0, 0, 0]) ⟨11 / 10, 0⟩).2.getD 3 0 = 1 ∧
    (postfilter_apply_as_claimed ( postfilter_initialize 8) [4, 4, 4, 4, 0, 0, 0, 0]
        [1, 1, 1, 1, 0, 0, 0, 0] ⟨11 / 10, 0⟩).getD 3 0 = 2 / 3 ∧
    ¬ ((1 : ℚ) = 2 / 3) := by
  refine ⟨?_, ?_, by norm_num⟩
  · have hn : get_adaptive_window_size ( postfilter_initialize 8)
        [4, 4, 4, 4, 0, 0, 0, 0] (11 / 10) [1, 1, 1, 1, 0, 0, 0, 0] = 1 := by
      norm_num [get_adaptive_window_size, postfilter_initialize, roundq,
        POSTFILTER_SCALE, show List.range 5 = [0, 1, 2, 3, 4] from rfl]
    simp only [postfilter_apply]
    rw [hn]
    norm_num [List.getD_eq_getElem?_getD, List.getElem?_ofFn, List.ofFnNthVal]
  · have hw : claimed_window_size ( postfilter_initialize 8)
        [4, 4, 4, 4, 0, 0, 0, 0] [1, 1, 1, 1, 0, 0, 0, 0] (11 / 10) = 3 := by
      norm_num [claimed_window_size, postfilter_initialize, roundq,
        POSTFILTER_SCALE, Int.floor_eq_iff,
        show List.range 5 = [0, 1, 2, 3, 4] from rfl]
      decide
    have hws : windowSum [1, 1, 1, 1, 0, 0, 0, 0] 5 1 3 = 2 := by
      norm_num [windowSum, clampIdx, Finset.sum_range_succ, Finset.sum_range_zero,
        show Int.toNat 3 = 3 from rfl, show Int.toNat 4 = 4 from rfl,
        show Int.toNat 5 = 5 from rfl]
    unfold postfilter_apply_as_claimed
    simp only [hw]
    simp only [List.getD_eq_getElem?_getD, List.getElem?_ofFn, List.ofFnNthVal,
      postfilter_initialize]
    norm_num [hws]

/-- Sliding the clamp-to-edge window one step to the right removes the
clamped oldest index and adds the clamped newest one. -/
theorem windowSum_succ (inl : List ℚ) (size half : Nat) (c : Int) :
    windowSum inl size half (c + 1) =
      windowSum inl size half c -
        inl.getD (clampIdx size (c - (half : Int))) 0 +
        inl.getD (clampIdx size (c + (half : Int) + 1)) 0 := by
  have A := Finset.sum_range_succ
    (fun d : Nat => inl.getD (clampIdx size (c + (d : Int) - (half : Int))) 0)
    (2 * half + 1)
  have B := Finset.sum_range_succ'
    (fun d : Nat => inl.getD (clampIdx size (c + (d : Int) - (half : Int))) 0)
    (2 * half + 1)
  simp only at A B
  have C : windowSum inl size half (c + 1) =
      ∑ d ∈ Finset.range (2 * half + 1),
        inl.getD (clampIdx size (c + ((d + 1 : Nat) : Int) - (half : Int))) 0 := by
    unfold windowSum
    refine Finset.sum_congr rfl fun d _ => ?_
    congr 2
    push_cast
    ring
  have D : inl.getD (clampIdx size (c + ((2 * half + 1 : Nat) : Int) -
      (half : Int))) 0 = inl.getD (clampIdx size (c + (half : Int) + 1)) 0 := by
    congr 2
    push_cast
    ring
  have E : inl.getD (clampIdx size (c + ((0 : Nat) : Int) - (half : Int))) 0 =
      inl.getD (clampIdx size (c - (half : Int))) 0 := by
    congr 2
    push_cast
    ring
  rw [C]
  unfold windowSum
  rw [D] at A
  rw [E] at B
  linarith [A, B]

/-- The running-sum loop stops once the index reaches the size. -/
theorem ma_loop_stop (inl : List ℚ) (size n half i : Nat) (current_sum : ℚ)
    (h : ¬ i < size) : ma_loop inl size n half i current_sum = [] := by
  unfold ma_loop
  rw [dif_neg h]

/-- The running-sum loop computes exactly the clamp-to-edge window averages:
starting at index `i` with the correct window sum, it emits
`windowSum (i + d) / n` for `d < size - i`. -/
theorem ma_loop_spec (inl : List ℚ) (size n half : Nat) :
    ∀ (m i : Nat), size - i = m → ∀ current_sum : ℚ,
      current_sum = windowSum inl size half (i : Int) →
      ma_loop inl size n half i current_sum =
        (List.range m).map
          (fun d : Nat => windowSum inl size half ((i : Int) + (d : Int)) / (n : ℚ)) := by
  intro m
  induction m with
  | zero =>
    intro i hi current_sum hsum
    have h : ¬ i < size := by omega
    rw [ma_loop_stop inl size n half i current_sum h, List.range_zero,
      List.map_nil]
  | succ m ih =>
    intro i hi current_sum hsum
    have hilt : i < size := by omega
    unfold ma_loop
    rw [dif_pos hilt]
    have hrange : List.range (m + 1) = 0 :: (List.range m).map Nat.succ :=
      List.range_succ_eq_map m
    rw [hrange]
    simp only [List.map_cons, List.map_map]
    congr 1
    · rw [hsum]
      simp
    · by_cases hnext : i + 1 < size
      · rw [if_pos hnext]
        have hsum' : current_sum -
            inl.getD (clampIdx size ((i : Int) - (half : Int))) 0 +
            inl.getD (clampIdx size ((i : Int) + (half : Int) + 1)) 0 =
            windowSum inl size half ((i + 1 : Nat) : Int) := by
          have hcast : ((i + 1 : Nat) : Int) = (i : Int) + 1 := by push_cast; ring
          rw [hsum, hcast, ← windowSum_succ]
        rw [ih (i + 1) (by omega) _ hsum']
        refine List.map_congr_left fun d _ => ?_
        simp only [Function.comp]
        congr 2
        push_cast
        ring
      · rw [if_neg hnext]
        have hm : m = 0 := by omega
        subst hm
        rw [ma_loop_stop inl size n half (i + 1) current_sum (by omega)]
        simp

/-- `moving_average` is the clamp-to-edge moving average: for `1 < n ≤ size`
each output bin is the window sum of width `2·(n/2) + 1` divided by `n`. -/
theorem moving_average_getD (inl : List ℚ) (size n : Nat) (h1 : 1 < n)
    (h2 : n ≤ size) (k : Nat) (hk : k < size) :
    (moving_average inl size n).getD k 0 =
      windowSum inl size (n / 2) (k : Int) / (n : ℚ) := by
  unfold moving_average
  rw [if_neg (by omega)]
  rw [ma_loop_spec inl size n (n / 2) size 0 (by omega) _ (by norm_num)]
  rw [getD_map_range _ (by omega : k < size)]
  norm_num

/-- Reading an `ofFn` spectrum inside its length. -/
theorem getD_ofFn {n : Nat} (f : Fin n → ℚ) (k : Nat) (hk : k < n) :
    (List.ofFn f).getD k 0 = f ⟨k, hk⟩ := by
  simp [List.getD_eq_getElem?_getD, List.getElem?_ofFn, List.ofFnNthVal, hk]

/-- The lower clamp of the post-filter is a `max`. -/
theorem ite_floor_eq_max (x floor : ℚ) :
    (if x < floor then floor else x) = max floor x := by
  rcases le_or_lt floor x with h | h
  · rw [if_neg (not_lt.mpr h), max_eq_right h]
  · rw [if_pos h, max_eq_left h.le]

/-- The code's adaptive window size equals the claim's formula amended with
two extra unit-width cases: negligible reference energy and `ζ ≥ 1`. -/
theorem adaptive_window_size_eq (self : PostFilter) (sp g : List ℚ)
    (snr_threshold : ℚ) :
    get_adaptive_window_size self sp snr_threshold g =
      (if ((List.range self.real_spectrum_size).map fun k =>
            sp.getD k 0 * sp.getD k 0).sum ≤ 1 / 10 ^ 12 ∨
          snr_threshold ≤
            (((List.range self.real_spectrum_size).map fun k =>
                sp.getD k 0 * g.getD k 0 * (sp.getD k 0 * g.getD k 0)).sum /
              ((List.range self.real_spectrum_size).map fun k =>
                sp.getD k 0 * sp.getD k 0).sum) ∨
          1 ≤ (((List.range self.real_spectrum_size).map fun k =>
                sp.getD k 0 * g.getD k 0 * (sp.getD k 0 * g.getD k 0)).sum /
              ((List.range self.real_spectrum_size).map fun k =>
                sp.getD k 0 * sp.getD k 0).sum)
       then 1
       else claimed_window_size self sp g snr_threshold) := by
  unfold get_adaptive_window_size claimed_window_size
  dsimp only
  set CE := ((List.range self.real_spectrum_size).map fun k =>
    sp.getD k 0 * g.getD k 0 * (sp.getD k 0 * g.getD k 0)).sum with hCE
  set NE := ((List.range self.real_spectrum_size).map fun k =>
    sp.getD k 0 * sp.getD k 0).sum with hNE
  by_cases hE : NE ≤ 1 / 10 ^ 12
  · rw [if_pos hE, if_pos (Or.inl hE)]
  · rw [if_neg hE]
    by_cases hthr : snr_threshold ≤ CE / NE
    · rw [if_pos hthr, if_pos (le_refl (1 : ℚ)), if_pos (Or.inr (Or.inl hthr))]
    · rw [if_neg hthr]
      by_cases h1 : (1 : ℚ) ≤ CE / NE
      · rw [if_pos h1, if_pos (Or.inr (Or.inr h1))]
      · rw [if_neg h1,
          if_neg (fun h => h.elim hE (fun h' => h'.elim hthr h1)),
          if_neg hthr]

/-- The real bins of the post-filter output, characterized per bin: the
lower clamp at `gain_floor` is a `max`, applied to the per-bin minimum of
original and moving-averaged gain when `1 < n ≤ real_spectrum_size`
(otherwise the gain passes through, since `moving_average` copies its input
when `n` exceeds the size). -/
theorem postfilter_apply_getD (self : PostFilter) (sp g : List ℚ)
    (params : PostFiltersParameters)
    (hpm : self.preserve_minimum = true)
    (k : Nat) (hk : k < self.real_spectrum_size)
    (hrss : self.real_spectrum_size ≤ g.length) :
    (postfilter_apply self (some sp) (some g) params).2.getD k 0 =
      max params.gain_floor
        (if 1 < get_adaptive_window_size self sp params.snr_threshold g ∧
            get_adaptive_window_size self sp params.snr_threshold g ≤
              self.real_spectrum_size then
          min (g.getD k 0)
            (windowSum g self.real_spectrum_size
                (get_adaptive_window_size self sp params.snr_threshold g / 2)
                (k : Int) /
              ((get_adaptive_window_size self sp params.snr_threshold g : ℚ)))
        else g.getD k 0) := by
  have hkg : k < g.length := lt_of_lt_of_le hk hrss
  simp only [postfilter_apply, hpm, if_true]
  set n := get_adaptive_window_size self sp params.snr_threshold g with hn
  by_cases hn1 : 1 < n
  · simp only [if_pos hn1]
    have hg1 : ∀ hk2 : k < g.length,
        (List.ofFn fun j : Fin g.length =>
          if (j : Nat) < self.real_spectrum_size then
            min (g.getD j 0)
              ((moving_average g self.real_spectrum_size n).getD j 0)
          else g.getD j 0).getD k 0 =
        min (g.getD k 0)
          ((moving_average g self.real_spectrum_size n).getD k 0) := by
      intro hk2
      rw [getD_ofFn _ k hk2]
      simp only [hk, if_true]
    have hk3 : k < (List.ofFn fun j : Fin g.length =>
        if (j : Nat) < self.real_spectrum_size then
          min (g.getD j 0)
            ((moving_average g self.real_spectrum_size n).getD j 0)
        else g.getD j 0).length := by
      simpa using hkg
    rw [getD_ofFn _ k hk3]
    simp only [Fin.coe_cast, Fin.val_mk]
    simp only [hg1 hkg, hk, true_and]
    by_cases hns : n ≤ self.real_spectrum_size
    · rw [ite_floor_eq_max, moving_average_getD g _ n hn1 hns k hk,
        if_pos ⟨hn1, hns⟩]
    · have hcopy : moving_average g self.real_spectrum_size n =
          g.take self.real_spectrum_size := by
        unfold moving_average
        rw [if_pos (Or.inr (by omega))]
      have htake : (g.take self.real_spectrum_size).getD k 0 = g.getD k 0 := by
        rw [List.getD_eq_getElem?_getD, List.getElem?_take, if_pos hk,
          ← List.getD_eq_getElem?_getD]
      rw [ite_floor_eq_max, hcopy, htake, min_self,
        if_neg (fun h => hns h.2)]
  · simp only [if_neg hn1]
    rw [getD_ofFn _ k hkg]
    simp only [Fin.coe_cast, Fin.val_mk]
    simp only [hk, true_and]
    rw [ite_floor_eq_max, if_neg (fun h => hn1 h.1)]

/-- C5 (corrected): for every post-filter call with reference spectrum `sp`
and gain map `g` (with `preserve_minimum` set, gains in `[0, 1]`, a gain
floor at most 1, and at least `real_spectrum_size` gains): (i) the window
size follows the claim's formula only after adding two unit-width cases the
claim omits — reference energy `Σ sp² ≤ 1e-12` and thresholded SNR
`ζ ≥ 1` — and the threshold comparison is `ζ ≥ snr_threshold`; (ii) the
call succeeds; (iii) each real output bin is
`max gain_floor (min gain smoothed)` when `1 < n ≤ real_spectrum_size` and
`max gain_floor gain` otherwise (the clamp at 1 claimed by the spec does
not exist in the code: the floor clamp is one-sided); (iv) outputs
nevertheless lie in `[gain_floor, 1]`, but only because the input gains
already lie in `[0, 1]`. -/
theorem postfilter_amended (self : PostFilter) (sp g : List ℚ)
    (params : PostFiltersParameters)
    (hpm : self.preserve_minimum = true)
    (hg : ∀ j : Nat, 0 ≤ g.getD j 0 ∧ g.getD j 0 ≤ 1)
    (hf1 : params.gain_floor ≤ 1)
    (hrss : self.real_spectrum_size ≤ g.length) :
    get_adaptive_window_size self sp params.snr_threshold g =
      (if ((List.range self.real_spectrum_size).map fun k =>
            sp.getD k 0 * sp.getD k 0).sum ≤ 1 / 10 ^ 12 ∨
          params.snr_threshold ≤
            (((List.range self.real_spectrum_size).map fun k =>
                sp.getD k 0 * g.getD k 0 * (sp.getD k 0 * g.getD k 0)).sum /
              ((List.range self.real_spectrum_size).map fun k =>
                sp.getD k 0 * sp.getD k 0).sum) ∨
          1 ≤ (((List.range self.real_spectrum_size).map fun k =>
                sp.getD k 0 * g.getD k 0 * (sp.getD k 0 * g.getD k 0)).sum /
              ((List.range self.real_spectrum_size).map fun k =>
                sp.getD k 0 * sp.getD k 0).sum)
       then 1
       else claimed_window_size self sp g params.snr_threshold) ∧
    (postfilter_apply self (some sp) (some g) params).1 = true ∧
    (∀ k : Nat, k < self.real_spectrum_size →
      (postfilter_apply self (some sp) (some g) params).2.getD k 0 =
        max params.gain_floor
          (if 1 < get_adaptive_window_size self sp params.snr_threshold g ∧
              get_adaptive_window_size self sp params.snr_threshold g ≤
                self.real_spectrum_size then
            min (g.getD k 0)
              (windowSum g self.real_spectrum_size
                  (get_adaptive_window_size self sp params.snr_threshold g / 2)
                  (k : Int) /
                ((get_adaptive_window_size self sp params.snr_threshold g : ℚ)))
          else g.getD k 0)) ∧
    (∀ k : Nat, k < self.real_spectrum_size →
      params.gain_floor ≤
          (postfilter_apply self (some sp) (some g) params).2.getD k 0 ∧
        (postfilter_apply self (some sp) (some g) params).2.getD k 0 ≤ 1) := by
  refine ⟨adaptive_window_size_eq self sp g params.snr_threshold, rfl,
    fun k hk => postfilter_apply_getD self sp g params hpm k hk hrss,
    fun k hk => ?_⟩
  rw [postfilter_apply_getD self sp g params hpm k hk hrss]
  refine ⟨le_max_left _ _, max_le hf1 ?_⟩
  split_ifs with h
  · exact le_trans (min_le_left _ _) (hg k).2
  · exact (hg k).2

/-- C5 witness: the amended post-filter characterization applied on an
8-point post-filter (5 real bins) to reference `[2,2,2,2,0,…]`, gains
`[1/2,1/2,1/2,1/2,0,…]`, `snr_threshold = 5/18` and `gain_floor = 1/10`,
reading bin 2 — here `ζ = 1/4 < 5/18`, so the smoothing branch `n = 3` is
exercised. -/
theorem postfilter_amended_witness :
    ( postfilter_initialize 8).preserve_minimum = true ∧
    (1 : ℚ) / 10 ≤ 1 ∧
    ( postfilter_initialize 8).real_spectrum_size ≤
      ([1 / 2, 1 / 2, 1 / 2, 1 / 2, 0, 0, 0, 0] : List ℚ).length ∧
    (postfilter_apply ( postfilter_initialize 8) (some [2, 2, 2, 2, 0, 0, 0, 0])
        (some [1 / 2, 1 / 2, 1 / 2, 1 / 2, 0, 0, 0, 0]) ⟨5 / 18, 1 / 10⟩).1 =
      true ∧
    ((1 : ℚ) / 10 ≤
        (postfilter_apply ( postfilter_initialize 8)
            (some [2, 2, 2, 2, 0, 0, 0, 0])
            (some [1 / 2, 1 / 2, 1 / 2, 1 / 2, 0, 0, 0, 0])
            ⟨5 / 18, 1 / 10⟩).2.getD 2 0 ∧
      (postfilter_apply ( postfilter_initialize 8)
          (some [2, 2, 2, 2, 0, 0, 0, 0])
          (some [1 / 2, 1 / 2, 1 / 2, 1 / 2, 0, 0, 0, 0])
          ⟨5 / 18, 1 / 10⟩).2.getD 2 0 ≤ 1) := by
  have hg : ∀ j : Nat,
      0 ≤ ([1 / 2, 1 / 2, 1 / 2, 1 / 2, 0, 0, 0, 0] : List ℚ).getD j 0 ∧
      ([1 / 2, 1 / 2, 1 / 2, 1 / 2, 0, 0, 0, 0] : List ℚ).getD j 0 ≤ 1 := by
    intro j
    rcases j with _ | _ | _ | _ | _ | _ | _ | _ | j <;>
      norm_num [List.getD_cons_zero, List.getD_cons_succ, List.getD_nil]
  have H := postfilter_amended ( postfilter_initialize 8) [2, 2, 2, 2, 0, 0, 0, 0]
    [1 / 2, 1 / 2, 1 / 2, 1 / 2, 0, 0, 0, 0] ⟨5 / 18, 1 / 10⟩ rfl hg
    (by norm_num) (by decide)
  exact ⟨rfl, by norm_num, by decide, H.2.1, H.2.2.2 2 (by decide)⟩
